import Mathlib

/-!
# Verification of the Redis cache / metrics manager

A shallow embedding of `src/api/script/redis-manager.ts` (the Q-promise
version, namespace `RMQ`) and `src/unnamed/part_000` (the async/await
version, namespace `RMA`) of `code-push-server`.

The store is modelled as an explicit state (`DB`): each logical Redis
database is a finite map from keys to hashes (field → string value) plus a
TTL table.  Every manager operation is translated into (a) the list of
atomic store actions it issues — a `multi … exec` block is one `RAct.batch`
action, a plain command one `RAct.single` — and (b) its returned value; the
post-state is obtained by running the issued actions through the command
interpreter `applyCmd`.  Observable intermediate states of an operation are
the states after each whole action (`List.scanl applyAct`), which is how the
all-or-nothing contract of `multi … exec` is expressed.

The JSON codec used by `setCachedResponse` / `getCachedResponse` is the
platform's `JSON.stringify` / `JSON.parse`, not code of this repository; it
is modelled from the spec as a concrete printer and recursive-descent parser
over a JSON value type (integer numerals, escape-free strings), and the
round-trip theorem is proved for that model.
-/

/-! ## Decimal digits -/

/-- A decimal digit character `'0'..'9'`. -/
def isDigitChar (c : Char) : Bool := 48 ≤ c.toNat && c.toNat ≤ 57

/-- Numeric value of a digit character. -/
def digitVal (c : Char) : Nat := c.toNat - 48

/-- The character of one decimal digit. -/
def digitCh (d : Nat) : Char := Char.ofNat (48 + d)

/-- Little-endian digit characters of `n`, driven by fuel (structural, so it
reduces in the kernel). -/
def natDigitsAux : Nat → Nat → List Char
  | 0, _ => []
  | _ + 1, 0 => []
  | fuel + 1, n => digitCh (n % 10) :: natDigitsAux fuel ((n + 1 - 1) / 10)

/-- Standard decimal rendering of a natural number. -/
def printNat (n : Nat) : List Char :=
  if n = 0 then ['0'] else (natDigitsAux n n).reverse

/-- Standard decimal rendering of an integer (as `String(n)` / Redis store
integers). -/
def printIntChars (n : Int) : List Char :=
  if n < 0 then '-' :: printNat (-n).toNat else printNat n.toNat

/-- The stored string form of an integer counter. -/
def printInt (n : Int) : String := String.mk (printIntChars n)

/-- Longest digit run at the head of the input. -/
def spanDigits : List Char → List Char × List Char
  | [] => ([], [])
  | c :: r =>
    if isDigitChar c then
      let p := spanDigits r
      (c :: p.1, p.2)
    else ([], c :: r)

/-- Value of a big-endian digit-character run. -/
def natOfDigits (ds : List Char) : Nat := ds.foldl (fun a c => 10 * a + digitVal c) 0

/-- Parse a nonempty digit run into a natural number, returning the rest. -/
def parseNat (cs : List Char) : Option (Nat × List Char) :=
  match spanDigits cs with
  | ([], _) => none
  | (ds, r) => some (natOfDigits ds, r)

/-- Parse an optionally `'-'`-signed digit run. -/
def parseIntChars (cs : List Char) : Option (Int × List Char) :=
  if cs.head? = some '-' then (parseNat cs.tail).map (fun p => (-(p.1 : Int), p.2))
  else (parseNat cs).map (fun p => ((p.1 : Int), p.2))

/-- True when the input does not begin with a digit (so a digit run before it
is maximal). -/
def headNotDigit : List Char → Bool
  | [] => true
  | c :: _ => !isDigitChar c

/-! ### Lemmas: the decimal round trip -/

theorem digitVal_digitCh : ∀ d : Nat, d < 10 → digitVal (digitCh d) = d := by decide

theorem isDigitChar_digitCh : ∀ d : Nat, d < 10 → isDigitChar (digitCh d) = true := by decide

/-- Little-endian value of a digit-character list. -/
def valLE : List Char → Nat
  | [] => 0
  | c :: r => digitVal c + 10 * valLE r

theorem natDigitsAux_all_digits (fuel : Nat) :
    ∀ n, ∀ c ∈ natDigitsAux fuel n, isDigitChar c = true := by
  induction fuel with
  | zero => intro n c hc; simp [natDigitsAux] at hc
  | succ f ih =>
    intro n c hc
    match n, hc with
    | 0, hc => simp [natDigitsAux] at hc
    | m + 1, hc =>
      simp only [natDigitsAux, List.mem_cons] at hc
      rcases hc with h | h
      · subst h; exact isDigitChar_digitCh _ (Nat.mod_lt _ (by omega))
      · exact ih _ c h

theorem valLE_natDigitsAux (fuel : Nat) : ∀ n, n ≤ fuel → valLE (natDigitsAux fuel n) = n := by
  induction fuel with
  | zero => intro n h; interval_cases n; simp [natDigitsAux, valLE]
  | succ f ih =>
    intro n h
    match n with
    | 0 => simp [natDigitsAux, valLE]
    | m + 1 =>
      have hdiv : (m + 1) / 10 ≤ f := by
        have := Nat.div_lt_self (n := m + 1) (by omega) (by omega : 1 < 10)
        omega
      simp only [natDigitsAux, valLE, Nat.add_sub_cancel]
      rw [digitVal_digitCh _ (Nat.mod_lt _ (by omega)), ih _ hdiv]
      omega

theorem foldl_digits_reverse (ds : List Char) :
    ∀ a : Nat, List.foldl (fun a c => 10 * a + digitVal c) a ds.reverse
      = a * 10 ^ ds.length + valLE ds := by
  induction ds with
  | nil => intro a; simp [valLE]
  | cons c t ih =>
    intro a
    simp only [List.reverse_cons, List.foldl_append, List.foldl_cons, List.foldl_nil, ih,
      List.length_cons, valLE]
    ring

theorem printNat_all_digits (n : Nat) : ∀ c ∈ printNat n, isDigitChar c = true := by
  intro c hc
  by_cases h : n = 0
  · subst h
    have h0 : printNat 0 = ['0'] := rfl
    rw [h0, List.mem_singleton] at hc
    subst hc; decide
  · simp only [printNat, if_neg h, List.mem_reverse] at hc
    exact natDigitsAux_all_digits n n c hc

theorem natOfDigits_printNat (n : Nat) : natOfDigits (printNat n) = n := by
  by_cases h : n = 0
  · subst h; decide
  · simp only [printNat, if_neg h, natOfDigits]
    rw [foldl_digits_reverse]
    simp [valLE_natDigitsAux n n le_rfl]

theorem printNat_ne_nil (n : Nat) : printNat n ≠ [] := by
  by_cases h : n = 0
  · subst h; decide
  · simp only [printNat, if_neg h, ne_eq, List.reverse_eq_nil_iff]
    match n, h with
    | m + 1, _ => simp [natDigitsAux]

theorem spanDigits_append (ds rest : List Char)
    (hds : ∀ c ∈ ds, isDigitChar c = true) (hrest : headNotDigit rest = true) :
    spanDigits (ds ++ rest) = (ds, rest) := by
  induction ds with
  | nil =>
    cases rest with
    | nil => rfl
    | cons c r =>
      simp only [headNotDigit, Bool.not_eq_true'] at hrest
      simp [spanDigits, hrest]
  | cons c t ih =>
    have hc : isDigitChar c = true := hds c (by simp)
    have ht := ih (fun c hc => hds c (by simp [hc]))
    simp [spanDigits, hc, ht]

theorem printNat_head_digit (n : Nat) :
    ∃ c t, printNat n = c :: t ∧ isDigitChar c = true := by
  cases h : printNat n with
  | nil => exact absurd h (printNat_ne_nil n)
  | cons c t =>
    exact ⟨c, t, rfl, printNat_all_digits n c (by rw [h]; exact List.mem_cons_self c t)⟩

theorem parseNat_print (n : Nat) (rest : List Char) (hrest : headNotDigit rest = true) :
    parseNat (printNat n ++ rest) = some (n, rest) := by
  obtain ⟨c, t, hct, -⟩ := printNat_head_digit n
  rw [parseNat, spanDigits_append _ _ (printNat_all_digits n) hrest, hct]
  show some (natOfDigits (c :: t), rest) = some (n, rest)
  rw [← hct, natOfDigits_printNat]

theorem parseIntChars_print (k : Int) (rest : List Char) (hrest : headNotDigit rest = true) :
    parseIntChars (printIntChars k ++ rest) = some (k, rest) := by
  by_cases hk : k < 0
  · simp only [printIntChars, if_pos hk, List.cons_append, parseIntChars, List.head?_cons,
      List.tail_cons, if_pos rfl]
    rw [parseNat_print _ _ hrest]
    simp only [if_true, Option.map_some', Option.some.injEq, Prod.mk.injEq, and_true]
    omega
  · obtain ⟨c, t, hct, hc⟩ := printNat_head_digit k.toNat
    have hchm : ¬ ((printNat k.toNat ++ rest).head? = some '-') := by
      rw [hct]
      simp only [List.cons_append, List.head?_cons, Option.some.injEq]
      intro h; subst h; simp [isDigitChar] at hc
    simp only [printIntChars, if_neg hk, parseIntChars, if_neg hchm]
    rw [parseNat_print _ _ hrest]
    simp only [Option.map_some', Option.some.injEq, Prod.mk.injEq, and_true]
    omega

/-! ## JSON values: the model of the platform codec

Modelled from the spec: `SerializedResponse` is "stored as an encoded
string; decoded on read" — the encoder/decoder is the platform's
`JSON.stringify` / `JSON.parse`, which is not code of this repository.  The
model covers the serializable fragment the spec names (integer numerals,
escape-free strings, arrays, objects). -/

inductive Json where
  | null : Json
  | bool : Bool → Json
  | num : Int → Json
  | str : String → Json
  | arr : List Json → Json
  | obj : List (String × Json) → Json

mutual

/-- `JSON.stringify` of a value (modelled; no whitespace, the JS default). -/
def printJson : Json → List Char
  | .null => "null".data
  | .bool true => "true".data
  | .bool false => "false".data
  | .num n => printIntChars n
  | .str s => '\"' :: s.data ++ ['\"']
  | .arr l => '[' :: printElems l
  | .obj l => '\x7b' :: printMembers l

/-- Array elements, comma separated, with the closing bracket. -/
def printElems : List Json → List Char
  | [] => [']']
  | [v] => printJson v ++ [']']
  | v :: rest => printJson v ++ ',' :: printElems rest

/-- Object members, comma separated, with the closing brace. -/
def printMembers : List (String × Json) → List Char
  | [] => ['\x7d']
  | [(k, v)] => '\"' :: k.data ++ '\"' :: ':' :: printJson v ++ ['\x7d']
  | (k, v) :: rest => '\"' :: k.data ++ '\"' :: ':' :: printJson v ++ ',' :: printMembers rest

end

mutual

/-- Well-formed (serializable without escapes): every string, key included,
contains no quote and no backslash. -/
def wfJson : Json → Bool
  | .null => true
  | .bool _ => true
  | .num _ => true
  | .str s => s.data.all (fun c => c ≠ '\"' && c ≠ '\\')
  | .arr l => wfElems l
  | .obj l => wfMembers l

def wfElems : List Json → Bool
  | [] => true
  | v :: rest => wfJson v && wfElems rest

def wfMembers : List (String × Json) → Bool
  | [] => true
  | (k, v) :: rest => k.data.all (fun c => c ≠ '\"' && c ≠ '\\') && wfJson v && wfMembers rest

end

mutual

/-- Fuel bound for parsing a printed value. -/
def szJ : Json → Nat
  | .null => 1
  | .bool _ => 1
  | .num _ => 1
  | .str _ => 1
  | .arr l => szL l + 1
  | .obj l => szM l + 1

def szL : List Json → Nat
  | [] => 1
  | v :: rest => szJ v + szL rest + 1

def szM : List (String × Json) → Nat
  | [] => 1
  | (_, v) :: rest => szJ v + szM rest + 1

end

/-- Strip an expected literal prefix. -/
def stripPfx : List Char → List Char → Option (List Char)
  | [], r => some r
  | p :: ps, c :: r => if c = p then stripPfx ps r else none
  | _ :: _, [] => none

/-- Consume a quoted string body up to the closing quote (escape-free
fragment). -/
def parseStrChars : List Char → Option (List Char × List Char)
  | [] => none
  | c :: r =>
    if c = '\"' then some ([], r)
    else (parseStrChars r).map (fun p => (c :: p.1, p.2))

mutual

/-- `JSON.parse` (modelled): fuel-indexed recursive descent. -/
def parseValue : Nat → List Char → Option (Json × List Char)
  | 0, _ => none
  | _ + 1, [] => none
  | n + 1, c :: r =>
    if c = 'n' then (stripPfx ['u', 'l', 'l'] r).map (fun r' => (Json.null, r'))
    else if c = 't' then (stripPfx ['r', 'u', 'e'] r).map (fun r' => (Json.bool true, r'))
    else if c = 'f' then (stripPfx ['a', 'l', 's', 'e'] r).map (fun r' => (Json.bool false, r'))
    else if c = '\"' then (parseStrChars r).map (fun p => (Json.str (String.mk p.1), p.2))
    else if c = '[' then
      if r.head? = some ']' then some (Json.arr [], r.tail)
      else (parseElemsF n r).map (fun p => (Json.arr p.1, p.2))
    else if c = '\x7b' then
      if r.head? = some '\x7d' then some (Json.obj [], r.tail)
      else (parseMembersF n r).map (fun p => (Json.obj p.1, p.2))
    else (parseIntChars (c :: r)).map (fun p => (Json.num p.1, p.2))

/-- Comma-separated elements of a nonempty array, consuming the `]`. -/
def parseElemsF : Nat → List Char → Option (List Json × List Char)
  | 0, _ => none
  | n + 1, cs =>
    match parseValue n cs with
    | some (v, ',' :: r) => (parseElemsF n r).map (fun p => (v :: p.1, p.2))
    | some (v, ']' :: r) => some ([v], r)
    | _ => none

/-- Comma-separated members of a nonempty object, consuming the brace. -/
def parseMembersF : Nat → List Char → Option (List (String × Json) × List Char)
  | 0, _ => none
  | n + 1, cs =>
    match cs with
    | '\"' :: r =>
      match parseStrChars r with
      | some (k, ':' :: r2) =>
        match parseValue n r2 with
        | some (v, ',' :: r3) =>
          (parseMembersF n r3).map (fun p => ((String.mk k, v) :: p.1, p.2))
        | some (v, '\x7d' :: r3) => some ([(String.mk k, v)], r3)
        | _ => none
      | _ => none
    | _ => none

end

/-- Top-level parse of a whole string; the fuel is ample for any printed
value (`szJ_le_twice_length`). -/
def jsonParse (s : String) : Option Json :=
  match parseValue (2 * s.data.length + 2) s.data with
  | some (v, []) => some v
  | _ => none

/-- `CacheableResponse` of the source: `{statusCode: number, body: any}`. -/
structure CacheableResponse where
  statusCode : Int
  body : Json

/-- Modelled from the spec: `JSON.stringify(response)`. -/
def serializeResponse (r : CacheableResponse) : String :=
  String.mk (printJson (Json.obj [("statusCode", Json.num r.statusCode), ("body", r.body)]))

/-- Modelled from the spec: `JSON.parse` of a serialized response, read back
structurally. -/
def deserializeResponse (s : String) : Option CacheableResponse :=
  match jsonParse s with
  | some (Json.obj [("statusCode", Json.num n), ("body", b)]) => some ⟨n, b⟩
  | _ => none

/-- Serializable for the modelled codec: the body's strings are escape-free. -/
def wfResponse (r : CacheableResponse) : Bool := wfJson r.body

/-! ### Lemmas: the codec round trip -/

theorem strMk_data (s : String) : String.mk s.data = s := rfl

theorem parseStrChars_append (s rest : List Char)
    (hs : s.all (fun c => c ≠ '\"' && c ≠ '\\') = true) :
    parseStrChars (s ++ '\"' :: rest) = some (s, rest) := by
  induction s with
  | nil => rfl
  | cons c t ih =>
    simp only [List.all_cons, Bool.and_eq_true, decide_eq_true_eq] at hs
    have hc : ¬(c = '\"') := hs.1.1
    have ht := ih hs.2
    rw [List.cons_append]
    simp only [parseStrChars, if_neg hc]
    rw [ht]
    rfl

theorem szJ_pos (v : Json) : 1 ≤ szJ v := by
  cases v <;> simp only [szJ] <;> omega

theorem szL_pos (l : List Json) : 1 ≤ szL l := by
  cases l with
  | nil => simp only [szL]; omega
  | cons v t => simp only [szL]; omega

theorem szM_pos (ml : List (String × Json)) : 1 ≤ szM ml := by
  cases ml with
  | nil => simp only [szM]; omega
  | cons kv t => obtain ⟨k, v⟩ := kv; simp only [szM]; omega

theorem wfElems_mem {l : List Json} (h : wfElems l = true) : ∀ v ∈ l, wfJson v = true := by
  induction l with
  | nil => intro v hv; simp at hv
  | cons a t ih =>
    intro v hv
    simp only [wfElems, Bool.and_eq_true] at h
    rcases List.mem_cons.mp hv with rfl | hv
    · exact h.1
    · exact ih h.2 v hv

theorem printIntChars_ne_nil (k : Int) : printIntChars k ≠ [] := by
  by_cases hk : k < 0
  · simp [printIntChars, hk]
  · simp only [printIntChars, if_neg hk]
    exact printNat_ne_nil _

/-- The first character of a printed value is an unambiguous dispatch
character: never a closing bracket, closing brace, comma or colon. -/
theorem printJson_cons (v : Json) (rest : List Char) :
    ∃ c t, printJson v ++ rest = c :: t ∧ ¬(c = ']') ∧ ¬(c = '\x7d') := by
  cases v with
  | null => exact ⟨'n', _, rfl, by decide, by decide⟩
  | bool b =>
    cases b
    · exact ⟨'f', _, rfl, by decide, by decide⟩
    · exact ⟨'t', _, rfl, by decide, by decide⟩
  | num k =>
    by_cases hk : k < 0
    · refine ⟨'-', printNat (-k).toNat ++ rest, ?_, by decide, by decide⟩
      simp [printJson, printIntChars, hk]
    · obtain ⟨c, t, hct, hc⟩ := printNat_head_digit k.toNat
      refine ⟨c, t ++ rest, ?_, ?_, ?_⟩
      · simp [printJson, printIntChars, hk, hct]
      · intro h; subst h; exact absurd hc (by decide)
      · intro h; subst h; exact absurd hc (by decide)
  | str s => exact ⟨'\"', _, rfl, by decide, by decide⟩
  | arr l => exact ⟨'[', _, rfl, by decide, by decide⟩
  | obj l => exact ⟨'\x7b', _, rfl, by decide, by decide⟩

theorem printElems_cons (e : Json) (es : List Json) (rest : List Char) :
    ∃ c t, printElems (e :: es) ++ rest = c :: t ∧ ¬(c = ']') ∧ ¬(c = '\x7d') := by
  cases es with
  | nil =>
    obtain ⟨c, t, h, h1, h2⟩ := printJson_cons e (']' :: rest)
    refine ⟨c, t, ?_, h1, h2⟩
    rw [show printElems [e] ++ rest = printJson e ++ (']' :: rest) from by simp [printElems]]
    exact h
  | cons e2 es' =>
    obtain ⟨c, t, h, h1, h2⟩ := printJson_cons e (',' :: (printElems (e2 :: es') ++ rest))
    refine ⟨c, t, ?_, h1, h2⟩
    rw [show printElems (e :: e2 :: es') ++ rest
        = printJson e ++ (',' :: (printElems (e2 :: es') ++ rest)) from by simp [printElems]]
    exact h

/-! Dispatch equations of `parseValue` for a symbolic tail. -/

theorem parseValue_digit (n : Nat) (c : Char) (xs : List Char) (hc : isDigitChar c = true) :
    parseValue (n + 1) (c :: xs)
      = (parseIntChars (c :: xs)).map (fun p => (Json.num p.1, p.2)) := by
  have h1 : ¬(c = 'n') := fun h => by subst h; exact absurd hc (by decide)
  have h2 : ¬(c = 't') := fun h => by subst h; exact absurd hc (by decide)
  have h3 : ¬(c = 'f') := fun h => by subst h; exact absurd hc (by decide)
  have h4 : ¬(c = '\"') := fun h => by subst h; exact absurd hc (by decide)
  have h5 : ¬(c = '[') := fun h => by subst h; exact absurd hc (by decide)
  have h6 : ¬(c = '\x7b') := fun h => by subst h; exact absurd hc (by decide)
  simp only [parseValue, if_neg h1, if_neg h2, if_neg h3, if_neg h4, if_neg h5, if_neg h6]

theorem parseValue_quote (n : Nat) (xs : List Char) :
    parseValue (n + 1) ('\"' :: xs)
      = (parseStrChars xs).map (fun p => (Json.str (String.mk p.1), p.2)) := rfl

theorem parseValue_arr (n : Nat) (xs : List Char) (h : ¬(xs.head? = some ']')) :
    parseValue (n + 1) ('[' :: xs)
      = (parseElemsF n xs).map (fun p => (Json.arr p.1, p.2)) := by
  have e : parseValue (n + 1) ('[' :: xs)
      = (if xs.head? = some ']' then some (Json.arr [], xs.tail)
         else (parseElemsF n xs).map (fun p => (Json.arr p.1, p.2))) := rfl
  rw [e, if_neg h]

theorem parseValue_obj (n : Nat) (xs : List Char) (h : ¬(xs.head? = some '\x7d')) :
    parseValue (n + 1) ('\x7b' :: xs)
      = (parseMembersF n xs).map (fun p => (Json.obj p.1, p.2)) := by
  have e : parseValue (n + 1) ('\x7b' :: xs)
      = (if xs.head? = some '\x7d' then some (Json.obj [], xs.tail)
         else (parseMembersF n xs).map (fun p => (Json.obj p.1, p.2))) := rfl
  rw [e, if_neg h]

/-- The modelled codec round trip: parsing a printed well-formed value (with
any non-digit continuation) returns exactly that value. -/
theorem roundTrip (n : Nat) :
    (∀ v rest, wfJson v = true → szJ v ≤ n → headNotDigit rest = true →
      parseValue n (printJson v ++ rest) = some (v, rest)) ∧
    (∀ l rest, wfElems l = true → l ≠ [] → szL l ≤ n →
      parseElemsF n (printElems l ++ rest) = some (l, rest)) ∧
    (∀ ml rest, wfMembers ml = true → ml ≠ [] → szM ml ≤ n →
      parseMembersF n (printMembers ml ++ rest) = some (ml, rest)) := by
  induction n using Nat.strong_induction_on with
  | _ n ih =>
  match n with
  | 0 =>
    refine ⟨fun v _ _ hsz _ => absurd hsz (by have := szJ_pos v; omega),
            fun l _ _ _ hsz => absurd hsz (by have := szL_pos l; omega),
            fun ml _ _ _ hsz => absurd hsz (by have := szM_pos ml; omega)⟩
  | m + 1 =>
    obtain ⟨ihV, ihE, ihM⟩ := ih m (Nat.lt_succ_self m)
    refine ⟨?_, ?_, ?_⟩
    · intro v rest hwf hsz hrest
      cases v with
      | null => rfl
      | bool b => cases b <;> rfl
      | num k =>
        by_cases hk : k < 0
        · rw [show printJson (Json.num k) ++ rest = '-' :: (printNat (-k).toNat ++ rest) from by
            simp [printJson, printIntChars, hk]]
          have e : parseValue (m + 1) ('-' :: (printNat (-k).toNat ++ rest))
              = (parseIntChars ('-' :: (printNat (-k).toNat ++ rest))).map
                  (fun p => (Json.num p.1, p.2)) := rfl
          rw [e, show '-' :: (printNat (-k).toNat ++ rest) = printIntChars k ++ rest from by
            simp [printIntChars, hk], parseIntChars_print k rest hrest]
          rfl
        · obtain ⟨c, t, hct, hc⟩ := printNat_head_digit k.toNat
          rw [show printJson (Json.num k) ++ rest = c :: (t ++ rest) from by
            simp [printJson, printIntChars, hk, hct]]
          rw [parseValue_digit m c (t ++ rest) hc,
            show c :: (t ++ rest) = printIntChars k ++ rest from by
              simp [printIntChars, hk, hct],
            parseIntChars_print k rest hrest]
          rfl
      | str s =>
        rw [show printJson (Json.str s) ++ rest = '\"' :: (s.data ++ '\"' :: rest) from by
          simp [printJson]]
        rw [parseValue_quote m _]
        have hs : s.data.all (fun c => c ≠ '\"' && c ≠ '\\') = true := by
          simpa [wfJson] using hwf
        rw [parseStrChars_append s.data rest hs]
        simp [strMk_data]
      | arr l =>
        cases l with
        | nil => rfl
        | cons e es =>
          obtain ⟨c, t, hcons, h1, h2⟩ := printElems_cons e es rest
          have hne : ¬((printElems (e :: es) ++ rest).head? = some ']') := by
            rw [hcons]
            simp [h1]
          rw [show printJson (Json.arr (e :: es)) ++ rest
              = '[' :: (printElems (e :: es) ++ rest) from by simp [printJson]]
          rw [parseValue_arr m _ hne]
          have hwl : wfElems (e :: es) = true := by simpa [wfJson] using hwf
          have hszl : szL (e :: es) ≤ m := by
            have e1 : szJ (Json.arr (e :: es)) = szL (e :: es) + 1 := rfl
            omega
          rw [ihE (e :: es) rest hwl (by simp) hszl]
          rfl
      | obj ml =>
        cases ml with
        | nil => rfl
        | cons kv tail =>
          obtain ⟨kk, vv⟩ := kv
          have hcons : ∃ c t, printMembers ((kk, vv) :: tail) ++ rest = c :: t ∧ ¬(c = '\x7d') := by
            cases tail with
            | nil =>
              exact ⟨'\"', kk.data ++ '\"' :: ':' :: (printJson vv ++ '\x7d' :: rest),
                by simp [printMembers], by decide⟩
            | cons kv2 tail' =>
              obtain ⟨k2, v2⟩ := kv2
              exact ⟨'\"', kk.data ++ '\"' :: ':'
                  :: (printJson vv ++ ',' :: (printMembers ((k2, v2) :: tail') ++ rest)),
                by simp [printMembers], by decide⟩
          obtain ⟨c, t, hct, h1⟩ := hcons
          have hne : ¬((printMembers ((kk, vv) :: tail) ++ rest).head? = some '\x7d') := by
            rw [hct]
            simp [h1]
          rw [show printJson (Json.obj ((kk, vv) :: tail)) ++ rest
              = '\x7b' :: (printMembers ((kk, vv) :: tail) ++ rest) from by simp [printJson]]
          rw [parseValue_obj m _ hne]
          have hwm : wfMembers ((kk, vv) :: tail) = true := by simpa [wfJson] using hwf
          have hszm : szM ((kk, vv) :: tail) ≤ m := by
            have e1 : szJ (Json.obj ((kk, vv) :: tail)) = szM ((kk, vv) :: tail) + 1 := rfl
            omega
          rw [ihM ((kk, vv) :: tail) rest hwm (by simp) hszm]
          rfl
    · intro l rest hwf hne hsz
      cases l with
      | nil => exact absurd rfl hne
      | cons v vs =>
        simp only [wfElems, Bool.and_eq_true] at hwf
        cases vs with
        | nil =>
          have hszv : szJ v ≤ m := by
            have e1 : szL [v] = szJ v + szL ([] : List Json) + 1 := rfl
            have e2 : szL ([] : List Json) = 1 := rfl
            omega
          rw [show printElems [v] ++ rest = printJson v ++ (']' :: rest) from by
            simp [printElems]]
          have hv := ihV v (']' :: rest) hwf.1 hszv (by rfl)
          simp only [parseElemsF, hv]
        | cons v2 vs' =>
          have e1 : szL (v :: v2 :: vs') = szJ v + szL (v2 :: vs') + 1 := rfl
          have hszv : szJ v ≤ m := by have := szL_pos (v2 :: vs'); omega
          have hszvs : szL (v2 :: vs') ≤ m := by have := szJ_pos v; omega
          rw [show printElems (v :: v2 :: vs') ++ rest
              = printJson v ++ (',' :: (printElems (v2 :: vs') ++ rest)) from by
            simp [printElems]]
          have hv := ihV v (',' :: (printElems (v2 :: vs') ++ rest)) hwf.1 hszv (by rfl)
          simp only [parseElemsF, hv]
          rw [ihE (v2 :: vs') rest hwf.2 (by simp) hszvs]
          rfl
    · intro ml rest hwf hne hsz
      cases ml with
      | nil => exact absurd rfl hne
      | cons kv tail =>
        obtain ⟨kk, vv⟩ := kv
        simp only [wfMembers, Bool.and_eq_true] at hwf
        obtain ⟨⟨hk, hv⟩, htail⟩ := hwf
        cases tail with
        | nil =>
          have hszv : szJ vv ≤ m := by
            have e1 : szM [(kk, vv)] = szJ vv + szM ([] : List (String × Json)) + 1 := rfl
            have e2 : szM ([] : List (String × Json)) = 1 := rfl
            omega
          rw [show printMembers [(kk, vv)] ++ rest
              = '\"' :: (kk.data ++ '\"' :: (':' :: (printJson vv ++ ('\x7d' :: rest)))) from by
            simp [printMembers]]
          simp only [parseMembersF]
          rw [parseStrChars_append kk.data _ hk]
          have hvv := ihV vv ('\x7d' :: rest) hv hszv (by rfl)
          simp only [hvv, strMk_data]
        | cons kv2 tail' =>
          have e1 : szM ((kk, vv) :: kv2 :: tail') = szJ vv + szM (kv2 :: tail') + 1 := by
            obtain ⟨k2, v2⟩ := kv2; rfl
          have hszv : szJ vv ≤ m := by have := szM_pos (kv2 :: tail'); omega
          have hszt : szM (kv2 :: tail') ≤ m := by have := szJ_pos vv; omega
          rw [show printMembers ((kk, vv) :: kv2 :: tail') ++ rest
              = '\"' :: (kk.data ++ '\"' :: (':' :: (printJson vv
                  ++ (',' :: (printMembers (kv2 :: tail') ++ rest))))) from by
            obtain ⟨k2, v2⟩ := kv2
            simp [printMembers]]
          simp only [parseMembersF]
          rw [parseStrChars_append kk.data _ hk]
          have hvv := ihV vv (',' :: (printMembers (kv2 :: tail') ++ rest)) hv hszv (by rfl)
          simp only [hvv]
          rw [ihM (kv2 :: tail') rest htail (by simp) hszt]
          simp [strMk_data]

/-- The parse fuel of `jsonParse` covers any printed value. -/
theorem print_length_bound (n : Nat) :
    (∀ v, szJ v ≤ n → szJ v ≤ 2 * (printJson v).length) ∧
    (∀ l, szL l ≤ n → szL l ≤ 2 * (printElems l).length) ∧
    (∀ ml, szM ml ≤ n → szM ml ≤ 2 * (printMembers ml).length) := by
  induction n using Nat.strong_induction_on with
  | _ n ih =>
  match n with
  | 0 =>
    refine ⟨fun v hsz => absurd hsz (by have := szJ_pos v; omega),
            fun l hsz => absurd hsz (by have := szL_pos l; omega),
            fun ml hsz => absurd hsz (by have := szM_pos ml; omega)⟩
  | m + 1 =>
    obtain ⟨ihV, ihE, ihM⟩ := ih m (Nat.lt_succ_self m)
    refine ⟨?_, ?_, ?_⟩
    · intro v hsz
      cases v with
      | null => simp [szJ, printJson]
      | bool b => cases b <;> simp [szJ, printJson]
      | num k =>
        have h1 : 1 ≤ (printJson (Json.num k)).length := by
          have : printJson (Json.num k) = printIntChars k := rfl
          rw [this]
          have := printIntChars_ne_nil k
          cases h : printIntChars k with
          | nil => exact absurd h this
          | cons c t => simp
        have h2 : szJ (Json.num k) = 1 := rfl
        omega
      | str s =>
        have h1 : (printJson (Json.str s)).length = s.data.length + 2 := by
          simp [printJson]
        have h2 : szJ (Json.str s) = 1 := rfl
        omega
      | arr l =>
        have e1 : szJ (Json.arr l) = szL l + 1 := rfl
        have e2 : (printJson (Json.arr l)).length = (printElems l).length + 1 := by
          simp [printJson]
        have := ihE l (by omega)
        omega
      | obj ml =>
        have e1 : szJ (Json.obj ml) = szM ml + 1 := rfl
        have e2 : (printJson (Json.obj ml)).length = (printMembers ml).length + 1 := by
          simp [printJson]
        have := ihM ml (by omega)
        omega
    · intro l hsz
      cases l with
      | nil => simp [szL, printElems]
      | cons v vs =>
        cases vs with
        | nil =>
          have e1 : szL [v] = szJ v + 2 := rfl
          have e2 : (printElems [v]).length = (printJson v).length + 1 := by
            simp [printElems]
          have := ihV v (by omega)
          omega
        | cons v2 vs' =>
          have e1 : szL (v :: v2 :: vs') = szJ v + szL (v2 :: vs') + 1 := rfl
          have e2 : (printElems (v :: v2 :: vs')).length
              = (printJson v).length + (printElems (v2 :: vs')).length + 1 := by
            simp [printElems]
            omega
          have h1 := ihV v (by have := szL_pos (v2 :: vs'); omega)
          have h2 := ihE (v2 :: vs') (by have := szJ_pos v; omega)
          omega
    · intro ml hsz
      cases ml with
      | nil => simp [szM, printMembers]
      | cons kv tail =>
        obtain ⟨kk, vv⟩ := kv
        cases tail with
        | nil =>
          have e1 : szM [(kk, vv)] = szJ vv + 2 := rfl
          have e2 : (printMembers [(kk, vv)]).length
              = kk.data.length + (printJson vv).length + 4 := by
            simp [printMembers]
            omega
          have := ihV vv (by omega)
          omega
        | cons kv2 tail' =>
          obtain ⟨k2, v2⟩ := kv2
          have e1 : szM ((kk, vv) :: (k2, v2) :: tail') = szJ vv + szM ((k2, v2) :: tail') + 1 := rfl
          have e2 : (printMembers ((kk, vv) :: (k2, v2) :: tail')).length
              = kk.data.length + (printJson vv).length + (printMembers ((k2, v2) :: tail')).length
                + 4 := by
            simp [printMembers]
            omega
          have h1 := ihV vv (by have := szM_pos ((k2, v2) :: tail'); omega)
          have h2 := ihM ((k2, v2) :: tail') (by have := szJ_pos vv; omega)
          omega

/-- Top-level codec round trip on whole strings. -/
theorem jsonParse_print (v : Json) (hwf : wfJson v = true) :
    jsonParse (String.mk (printJson v)) = some v := by
  have hfuel : szJ v ≤ 2 * (printJson v).length + 2 := by
    have := (print_length_bound (szJ v)).1 v le_rfl
    omega
  have h := (roundTrip (2 * (printJson v).length + 2)).1 v [] hwf hfuel rfl
  rw [List.append_nil] at h
  unfold jsonParse
  rw [show (String.mk (printJson v)).data = printJson v from rfl, h]

/-- Round trip of a serialized well-formed response. -/
theorem deserialize_serialize (r : CacheableResponse) (h : wfResponse r = true) :
    deserializeResponse (serializeResponse r) = some r := by
  have hwf : wfJson (Json.obj [("statusCode", Json.num r.statusCode), ("body", r.body)])
      = true := by
    show wfMembers [("statusCode", Json.num r.statusCode), ("body", r.body)] = true
    simp only [wfMembers, wfJson, Bool.and_eq_true]
    exact ⟨⟨by decide, trivial⟩, ⟨by decide, h⟩, trivial⟩
  unfold deserializeResponse serializeResponse
  rw [jsonParse_print _ hwf]
  rfl

/-! ## Integer parsing models -/

/-- Strict integer parse, as Redis `HINCRBY` reads a stored value: an
optional `'-'` sign and a digit run spanning the whole string. -/
def redisParseInt (s : String) : Option Int :=
  match parseIntChars s.data with
  | some (n, []) => some n
  | _ => none

/-- A JS whitespace character (the common set). -/
def jsWhitespace (c : Char) : Bool := c = ' ' || c = '\t' || c = '\n' || c = '\r'

/-- JavaScript `parseInt(s, 10)`: skip whitespace, optional sign, then the
longest digit prefix; `none` models `NaN` (no digit found).  Trailing
non-digit characters are ignored, never an error. -/
def jsParseInt (s : String) : Option Int :=
  let cs := s.data.dropWhile jsWhitespace
  match cs.head? with
  | some '+' => (parseNat cs.tail).map (fun p => (p.1 : Int))
  | some '-' => (parseNat cs.tail).map (fun p => (-(p.1 : Int)))
  | _ => (parseNat cs).map (fun p => ((p.1 : Int)))

theorem redisParseInt_printInt (n : Int) : redisParseInt (printInt n) = some n := by
  unfold redisParseInt printInt
  rw [show (String.mk (printIntChars n)).data = printIntChars n from rfl]
  rw [show printIntChars n = printIntChars n ++ [] from (List.append_nil _).symm,
    parseIntChars_print n [] rfl]

/-! ## The store model

A Redis logical database: keys holding hashes (field → string value), plus
the TTL table written by `EXPIRE`.  Association lists model the maps. -/

/-- Lookup in an association list. -/
def aGet {α : Type} : List (String × α) → String → Option α
  | [], _ => none
  | (k, v) :: t, k' => if k = k' then some v else aGet t k'

/-- Insert-or-replace in an association list (in place, preserving order). -/
def aSet {α : Type} : List (String × α) → String → α → List (String × α)
  | [], k, v => [(k, v)]
  | (k', v') :: t, k, v => if k' = k then (k, v) :: t else (k', v') :: aSet t k v

/-- Remove a key from an association list. -/
def aDel {α : Type} : List (String × α) → String → List (String × α)
  | [], _ => []
  | (k', v') :: t, k => if k' = k then t else (k', v') :: aDel t k

/-- One logical Redis database. -/
structure DB where
  hashes : List (String × List (String × String))
  ttls : List (String × Nat)
deriving DecidableEq

/-- The empty database. -/
def emptyDB : DB := ⟨[], []⟩

/-- `HGET key field`. -/
def dbHGet (db : DB) (k f : String) : Option String :=
  match aGet db.hashes k with
  | some h => aGet h f
  | none => none

/-- `HSET key field value` (creates the key when absent). -/
def dbHSet (db : DB) (k f v : String) : DB :=
  match aGet db.hashes k with
  | some h => { db with hashes := aSet db.hashes k (aSet h f v) }
  | none => { db with hashes := aSet db.hashes k [(f, v)] }

/-- `HGETALL key` (empty table when the key is absent). -/
def dbHGetAll (db : DB) (k : String) : List (String × String) :=
  (aGet db.hashes k).getD []

/-- `EXISTS key`. -/
def keyExists (db : DB) (k : String) : Bool :=
  match aGet db.hashes k with
  | some h => !h.isEmpty
  | none => false

/-- `HDEL key field`; Redis drops a hash key (and its TTL) once its last
field is removed. -/
def dbHDel (db : DB) (k f : String) : DB :=
  match aGet db.hashes k with
  | some h =>
    let h' := aDel h f
    if h'.isEmpty then { hashes := aDel db.hashes k, ttls := aDel db.ttls k }
    else { db with hashes := aSet db.hashes k h' }
  | none => db

/-- `DEL key…` (removes the keys and their TTLs). -/
def dbDel (db : DB) (ks : List String) : DB :=
  { hashes := ks.foldl (fun h k => aDel h k) db.hashes,
    ttls := ks.foldl (fun t k => aDel t k) db.ttls }

/-- `EXPIRE key seconds` (a no-op on a missing key). -/
def dbExpire (db : DB) (k : String) (secs : Nat) : DB :=
  if keyExists db k then { db with ttls := aSet db.ttls k secs } else db

/-- The store commands the manager issues.  The `hincrby` field is an
`Option` because `recordUpdate` passes the field-derivation result — the
invalid marker (`null` in the source) included — straight to the client. -/
inductive RCmd where
  | hget : String → String → RCmd
  | hset : String → String → String → RCmd
  | hgetall : String → RCmd
  | hincrby : String → Option String → Int → RCmd
  | hdel : String → String → RCmd
  | del : List String → RCmd
  | existsKey : String → RCmd
  | expire : String → Nat → RCmd
  | ping : RCmd
  | quit : RCmd
deriving DecidableEq

/-- An atomic step against the store: one command, or one committed
`multi … exec` batch. -/
inductive RAct where
  | single : RCmd → RAct
  | batch : List RCmd → RAct
deriving DecidableEq

/-- Effect of one command on a database.  `HINCRBY` on an absent field
creates it at the delta; on a non-integer value the command errors and (as
inside `MULTI`) leaves the value unchanged; a null field marker is handed to
the transport, whose marshalling is outside the embedded core — no claim
depends on that branch, modelled as leaving the store unchanged. -/
def applyCmd (db : DB) : RCmd → DB
  | .hget _ _ => db
  | .hgetall _ => db
  | .existsKey _ => db
  | .ping => db
  | .quit => db
  | .hset k f v => dbHSet db k f v
  | .hdel k f => dbHDel db k f
  | .del ks => dbDel db ks
  | .expire k secs => dbExpire db k secs
  | .hincrby k of d =>
    match of with
    | none => db
    | some f =>
      match dbHGet db k f with
      | none => dbHSet db k f (printInt d)
      | some v =>
        match redisParseInt v with
        | some n => dbHSet db k f (printInt (n + d))
        | none => db

/-- Effect of one atomic action: a batch commits all its commands in one
indivisible step. -/
def applyAct (db : DB) : RAct → DB
  | .single c => applyCmd db c
  | .batch cs => cs.foldl applyCmd db

/-- Run a list of actions. -/
def runActs (db : DB) (tr : List RAct) : DB := tr.foldl applyAct db

/-- The states a concurrent reader can observe while a trace runs: the state
after each whole atomic action (never inside a batch). -/
def observableStates (db : DB) (tr : List RAct) : List DB := tr.scanl applyAct db

/-- The flat command list of a trace. -/
def traceCmds (tr : List RAct) : List RCmd :=
  (tr.map (fun a => match a with | .single c => [c] | .batch cs => cs)).flatten

/-- How many `EXPIRE` commands a trace attempts. -/
def expireAttempts (tr : List RAct) : Nat :=
  (traceCmds tr).countP (fun c => match c with | .expire _ _ => true | _ => false)

/-- Integer value of a counter field (0 when absent, as `HINCRBY` treats a
missing field). -/
def counterVal (db : DB) (k f : String) : Int :=
  match dbHGet db k f with
  | none => 0
  | some v => (redisParseInt v).getD 0

/-- The field holds a valid integer or is absent (always true under the
manager's own writers). -/
def intOrAbsent (db : DB) (k f : String) : Bool :=
  match dbHGet db k f with
  | none => true
  | some v => (redisParseInt v).isSome

/-! ## Constants and `Utilities` (verbatim identical in both source files) -/

def DEPLOYMENT_SUCCEEDED : String := "DeploymentSucceeded"
def DEPLOYMENT_FAILED : String := "DeploymentFailed"
def ACTIVE : String := "Active"
def DOWNLOADED : String := "Downloaded"

namespace Utilities

/-- `isValidDeploymentStatus` of the source. -/
def isValidDeploymentStatus (status : String) : Bool :=
  status = DEPLOYMENT_SUCCEEDED || status = DEPLOYMENT_FAILED || status = DOWNLOADED

/-- `getLabelStatusField`: `label:status` for a valid status, else the
invalid marker (`null` in the source). -/
def getLabelStatusField (label status : String) : Option String :=
  if isValidDeploymentStatus status then some (label ++ ":" ++ status) else none

/-- `getLabelActiveCountField`: `label:Active` for a truthy (nonempty)
label, else the invalid marker. -/
def getLabelActiveCountField (label : String) : Option String :=
  if label = "" then none else some (label ++ ":" ++ ACTIVE)

/-- `getDeploymentKeyHash`. -/
def getDeploymentKeyHash (deploymentKey : String) : String :=
  "deploymentKey:" ++ deploymentKey

/-- `getDeploymentKeyLabelsHash`. -/
def getDeploymentKeyLabelsHash (deploymentKey : String) : String :=
  "deploymentKeyLabels:" ++ deploymentKey

/-- `getDeploymentKeyClientsHash`. -/
def getDeploymentKeyClientsHash (deploymentKey : String) : String :=
  "deploymentKeyClients:" ++ deploymentKey

end Utilities

/-- Errors an operation can surface: the disabled-manager health-check error
("Redis manager is not enabled") and a decode failure of a cached payload
(`JSON.parse` throwing). -/
inductive RErr where
  | notEnabled : RErr
  | parseError : RErr
deriving DecidableEq

/-- JS truthiness of a possibly-absent string (`undefined`/`null`/`""` are
falsy). -/
def truthy : Option String → Bool
  | none => false
  | some s => !(s == "")

/-- One hour, `RedisManager.DEFAULT_EXPIRY`. -/
def DEFAULT_EXPIRY : Nat := 3600

/-! ## `RMQ`: the manager of `src/api/script/redis-manager.ts`

Each operation takes the manager's `isEnabled` flag and (for reads) the
relevant database, and yields its result together with the trace of atomic
actions it issues against that database; cache operations speak to the ops
database, metrics operations to the metrics database.  The post-state of an
operation on database `db` is `runActs db trace`. -/

namespace RMQ

/-- `checkHealth` (ops-client ping, metrics-client ping). -/
def checkHealth (isEnabled : Bool) : Except RErr Unit × (List RAct × List RAct) :=
  if !isEnabled then (.error .notEnabled, ([], []))
  else (.ok (), ([.single .ping], [.single .ping]))

/-- `getCachedResponse`: `hget` then `JSON.parse` on a truthy payload;
a parse failure rejects. -/
def getCachedResponse (isEnabled : Bool) (ops : DB) (expiryKey url : String) :
    Except RErr (Option CacheableResponse) × List RAct :=
  if !isEnabled then (.ok none, [])
  else
    let tr := [RAct.single (.hget expiryKey url)]
    match dbHGet ops expiryKey url with
    | some serialized =>
      if serialized = "" then (.ok none, tr)
      else
        match deserializeResponse serialized with
        | some r => (.ok (some r), tr)
        | none => (.error .parseError, tr)
    | none => (.ok none, tr)

/-- `setCachedResponse`: `exists`, unconditional `hset`, and an `expire`
only when the key was new. -/
def setCachedResponse (isEnabled : Bool) (ops : DB) (expiryKey url : String)
    (response : CacheableResponse) : List RAct :=
  if !isEnabled then []
  else
    let serialized := serializeResponse response
    let isNewKey := !keyExists ops expiryKey
    [RAct.single (.existsKey expiryKey), RAct.single (.hset expiryKey url serialized)]
      ++ (if isNewKey then [RAct.single (.expire expiryKey DEFAULT_EXPIRY)] else [])

/-- `incrementLabelStatusCount`: a falsy (invalid-status) field short-circuits
to a resolved promise with no command. -/
def incrementLabelStatusCount (isEnabled : Bool) (deploymentKey label status : String) :
    List RAct :=
  if !isEnabled then []
  else
    let hash := Utilities.getDeploymentKeyLabelsHash deploymentKey
    let field := Utilities.getLabelStatusField label status
    if !truthy field then []
    else [RAct.single (.hincrby hash field 1)]

/-- `clearMetricsForDeploymentKey`: one `del` of both hashes. -/
def clearMetricsForDeploymentKey (isEnabled : Bool) (deploymentKey : String) : List RAct :=
  if !isEnabled then []
  else [RAct.single (.del [Utilities.getDeploymentKeyLabelsHash deploymentKey,
                           Utilities.getDeploymentKeyClientsHash deploymentKey])]

/-- `getMetricsWithDeploymentKey`: `hgetall` then `parseInt(·, 10)` on every
value. -/
def getMetricsWithDeploymentKey (isEnabled : Bool) (metrics : DB) (deploymentKey : String) :
    Except RErr (Option (List (String × Option Int))) × List RAct :=
  if !isEnabled then (.ok none, [])
  else
    let rawMetrics := dbHGetAll metrics (Utilities.getDeploymentKeyLabelsHash deploymentKey)
    (.ok (some (rawMetrics.map (fun p => (p.1, jsParseInt p.2)))),
     [RAct.single (.hgetall (Utilities.getDeploymentKeyLabelsHash deploymentKey))])

/-- `recordUpdate`: one `multi` batch — two `hincrby` on the current labels
hash, and a decrement on the previous labels hash when a truthy previous
pair is given. -/
def recordUpdate (isEnabled : Bool) (currentDeploymentKey currentLabel : String)
    (previousDeploymentKey previousLabel : Option String) : List RAct :=
  if !isEnabled then []
  else
    let currentHash := Utilities.getDeploymentKeyLabelsHash currentDeploymentKey
    let base := [RCmd.hincrby currentHash (Utilities.getLabelActiveCountField currentLabel) 1,
                 RCmd.hincrby currentHash
                   (Utilities.getLabelStatusField currentLabel DEPLOYMENT_SUCCEEDED) 1]
    let cmds :=
      if truthy previousDeploymentKey && truthy previousLabel then
        base ++ [RCmd.hincrby
          (Utilities.getDeploymentKeyLabelsHash (previousDeploymentKey.getD ""))
          (Utilities.getLabelActiveCountField (previousLabel.getD "")) (-1)]
      else base
    [RAct.batch cmds]

/-- `removeDeploymentKeyClientActiveLabel`: one `hdel` on the clients hash. -/
def removeDeploymentKeyClientActiveLabel (isEnabled : Bool)
    (deploymentKey clientUniqueId : String) : List RAct :=
  if !isEnabled then []
  else [RAct.single (.hdel (Utilities.getDeploymentKeyClientsHash deploymentKey) clientUniqueId)]

/-- `invalidateCache`: one `del` of the scope key. -/
def invalidateCache (isEnabled : Bool) (expiryKey : String) : List RAct :=
  if !isEnabled then []
  else [RAct.single (.del [expiryKey])]

/-- `close`: quit each client that was constructed. -/
def close (opsClientPresent metricsClientPresent : Bool) : List RAct × List RAct :=
  ((if opsClientPresent then [RAct.single .quit] else []),
   (if metricsClientPresent then [RAct.single .quit] else []))

/-- `getCurrentActiveLabel` (deprecated in the source): `hget` on the
clients hash. -/
def getCurrentActiveLabel (isEnabled : Bool) (metrics : DB)
    (deploymentKey clientUniqueId : String) : Option String × List RAct :=
  if !isEnabled then (none, [])
  else (dbHGet metrics (Utilities.getDeploymentKeyClientsHash deploymentKey) clientUniqueId,
        [RAct.single (.hget (Utilities.getDeploymentKeyClientsHash deploymentKey) clientUniqueId)])

/-- `updateActiveAppForClient` (deprecated in the source): one `multi` batch. -/
def updateActiveAppForClient (isEnabled : Bool) (deploymentKey clientUniqueId toLabel : String)
    (fromLabel : Option String) : List RAct :=
  if !isEnabled then []
  else
    let deploymentKeyClientsHash := Utilities.getDeploymentKeyClientsHash deploymentKey
    let deploymentKeyLabelsHash := Utilities.getDeploymentKeyLabelsHash deploymentKey
    let base := [RCmd.hset deploymentKeyClientsHash clientUniqueId toLabel,
                 RCmd.hincrby deploymentKeyLabelsHash
                   (Utilities.getLabelActiveCountField toLabel) 1]
    let cmds :=
      if truthy fromLabel then
        base ++ [RCmd.hincrby deploymentKeyLabelsHash
          (Utilities.getLabelActiveCountField (fromLabel.getD "")) (-1)]
      else base
    [RAct.batch cmds]

end RMQ

/-! ## `RMA`: the manager of `src/unnamed/part_000` (async/await version)

Operation for operation the same store protocol as `RMQ`; the two files
differ in promise plumbing (`Q` wrappers against `async`/`await`) and in the
constructor (`RMA`'s leaves the manager disabled when no store is
configured), which takes no part in any operation below. -/

namespace RMA

/-- `checkHealth`: throws when disabled, else pings both clients. -/
def checkHealth (isEnabled : Bool) : Except RErr Unit × (List RAct × List RAct) :=
  if !isEnabled then (.error .notEnabled, ([], []))
  else (.ok (), ([.single .ping], [.single .ping]))

/-- `getCachedResponse`: `hget`, then `JSON.parse` on a truthy payload. -/
def getCachedResponse (isEnabled : Bool) (ops : DB) (expiryKey url : String) :
    Except RErr (Option CacheableResponse) × List RAct :=
  if !isEnabled then (.ok none, [])
  else
    let tr := [RAct.single (.hget expiryKey url)]
    match dbHGet ops expiryKey url with
    | some serialized =>
      if serialized = "" then (.ok none, tr)
      else
        match deserializeResponse serialized with
        | some r => (.ok (some r), tr)
        | none => (.error .parseError, tr)
    | none => (.ok none, tr)

/-- `setCachedResponse`. -/
def setCachedResponse (isEnabled : Bool) (ops : DB) (expiryKey url : String)
    (response : CacheableResponse) : List RAct :=
  if !isEnabled then []
  else
    let serialized := serializeResponse response
    let isNewKey := !keyExists ops expiryKey
    [RAct.single (.existsKey expiryKey), RAct.single (.hset expiryKey url serialized)]
      ++ (if isNewKey then [RAct.single (.expire expiryKey DEFAULT_EXPIRY)] else [])

/-- `incrementLabelStatusCount`: `if (field) await hincrby`. -/
def incrementLabelStatusCount (isEnabled : Bool) (deploymentKey label status : String) :
    List RAct :=
  if !isEnabled then []
  else
    let hash := Utilities.getDeploymentKeyLabelsHash deploymentKey
    let field := Utilities.getLabelStatusField label status
    if !truthy field then []
    else [RAct.single (.hincrby hash field 1)]

/-- `clearMetricsForDeploymentKey`. -/
def clearMetricsForDeploymentKey (isEnabled : Bool) (deploymentKey : String) : List RAct :=
  if !isEnabled then []
  else [RAct.single (.del [Utilities.getDeploymentKeyLabelsHash deploymentKey,
                           Utilities.getDeploymentKeyClientsHash deploymentKey])]

/-- `getMetricsWithDeploymentKey`. -/
def getMetricsWithDeploymentKey (isEnabled : Bool) (metrics : DB) (deploymentKey : String) :
    Except RErr (Option (List (String × Option Int))) × List RAct :=
  if !isEnabled then (.ok none, [])
  else
    let rawMetrics := dbHGetAll metrics (Utilities.getDeploymentKeyLabelsHash deploymentKey)
    (.ok (some (rawMetrics.map (fun p => (p.1, jsParseInt p.2)))),
     [RAct.single (.hgetall (Utilities.getDeploymentKeyLabelsHash deploymentKey))])

/-- `recordUpdate`. -/
def recordUpdate (isEnabled : Bool) (currentDeploymentKey currentLabel : String)
    (previousDeploymentKey previousLabel : Option String) : List RAct :=
  if !isEnabled then []
  else
    let currentHash := Utilities.getDeploymentKeyLabelsHash currentDeploymentKey
    let base := [RCmd.hincrby currentHash (Utilities.getLabelActiveCountField currentLabel) 1,
                 RCmd.hincrby currentHash
                   (Utilities.getLabelStatusField currentLabel DEPLOYMENT_SUCCEEDED) 1]
    let cmds :=
      if truthy previousDeploymentKey && truthy previousLabel then
        base ++ [RCmd.hincrby
          (Utilities.getDeploymentKeyLabelsHash (previousDeploymentKey.getD ""))
          (Utilities.getLabelActiveCountField (previousLabel.getD "")) (-1)]
      else base
    [RAct.batch cmds]

/-- `removeDeploymentKeyClientActiveLabel`. -/
def removeDeploymentKeyClientActiveLabel (isEnabled : Bool)
    (deploymentKey clientUniqueId : String) : List RAct :=
  if !isEnabled then []
  else [RAct.single (.hdel (Utilities.getDeploymentKeyClientsHash deploymentKey) clientUniqueId)]

/-- `invalidateCache`. -/
def invalidateCache (isEnabled : Bool) (expiryKey : String) : List RAct :=
  if !isEnabled then []
  else [RAct.single (.del [expiryKey])]

/-- `close`: quit each client that was constructed. -/
def close (opsClientPresent metricsClientPresent : Bool) : List RAct × List RAct :=
  ((if opsClientPresent then [RAct.single .quit] else []),
   (if metricsClientPresent then [RAct.single .quit] else []))

/-- `getCurrentActiveLabel` (deprecated in the source). -/
def getCurrentActiveLabel (isEnabled : Bool) (metrics : DB)
    (deploymentKey clientUniqueId : String) : Option String × List RAct :=
  if !isEnabled then (none, [])
  else (dbHGet metrics (Utilities.getDeploymentKeyClientsHash deploymentKey) clientUniqueId,
        [RAct.single (.hget (Utilities.getDeploymentKeyClientsHash deploymentKey) clientUniqueId)])

/-- `updateActiveAppForClient` (deprecated in the source). -/
def updateActiveAppForClient (isEnabled : Bool) (deploymentKey clientUniqueId toLabel : String)
    (fromLabel : Option String) : List RAct :=
  if !isEnabled then []
  else
    let deploymentKeyClientsHash := Utilities.getDeploymentKeyClientsHash deploymentKey
    let deploymentKeyLabelsHash := Utilities.getDeploymentKeyLabelsHash deploymentKey
    let base := [RCmd.hset deploymentKeyClientsHash clientUniqueId toLabel,
                 RCmd.hincrby deploymentKeyLabelsHash
                   (Utilities.getLabelActiveCountField toLabel) 1]
    let cmds :=
      if truthy fromLabel then
        base ++ [RCmd.hincrby deploymentKeyLabelsHash
          (Utilities.getLabelActiveCountField (fromLabel.getD "")) (-1)]
      else base
    [RAct.batch cmds]

end RMA

/-! ### Lemmas: the association-list store -/

theorem aGet_aSet_same {α : Type} (l : List (String × α)) (k : String) (v : α) :
    aGet (aSet l k v) k = some v := by
  induction l with
  | nil => simp [aSet, aGet]
  | cons p t ih =>
    obtain ⟨k', v'⟩ := p
    by_cases h : k' = k
    · subst h; simp [aSet, aGet]
    · simp [aSet, aGet, h, ih]

theorem aGet_aSet_ne {α : Type} (l : List (String × α)) (k k' : String) (v : α)
    (h : ¬(k = k')) : aGet (aSet l k v) k' = aGet l k' := by
  have h' : ¬(k' = k) := fun hx => h hx.symm
  induction l with
  | nil => simp [aSet, aGet, h]
  | cons p t ih =>
    obtain ⟨k0, v0⟩ := p
    by_cases h0 : k0 = k
    · subst h0; simp [aSet, aGet, h, h']
    · by_cases h1 : k0 = k' <;> simp [aSet, aGet, h0, h1, h', ih]

theorem aSet_ne_nil {α : Type} (l : List (String × α)) (k : String) (v : α) :
    aSet l k v ≠ [] := by
  cases l with
  | nil => simp [aSet]
  | cons p t => obtain ⟨k', v'⟩ := p; by_cases h : k' = k <;> simp [aSet, h]

theorem dbHGet_dbHSet_same (db : DB) (k f v : String) :
    dbHGet (dbHSet db k f v) k f = some v := by
  unfold dbHGet dbHSet
  cases hh : aGet db.hashes k with
  | some h => simp [aGet_aSet_same]
  | none => simp [aGet_aSet_same, aGet]

theorem dbHGet_dbHSet_ne (db : DB) (k f v k' f' : String) (h : ¬(k = k' ∧ f = f')) :
    dbHGet (dbHSet db k f v) k' f' = dbHGet db k' f' := by
  by_cases hk : k = k'
  · subst hk
    have hf : ¬(f = f') := fun hf => h ⟨rfl, hf⟩
    unfold dbHGet dbHSet
    cases hh : aGet db.hashes k with
    | some hsh => simp [hh, aGet_aSet_same, aGet_aSet_ne _ _ _ _ hf]
    | none => simp [hh, aGet_aSet_same, aGet, hf]
  · unfold dbHGet dbHSet
    cases hh : aGet db.hashes k with
    | some hsh => simp [aGet_aSet_ne _ _ _ _ hk]
    | none => simp [aGet_aSet_ne _ _ _ _ hk]

theorem keyExists_dbHSet (db : DB) (k f v : String) :
    keyExists (dbHSet db k f v) k = true := by
  unfold keyExists dbHSet
  cases hh : aGet db.hashes k with
  | some h =>
    simp only [aGet_aSet_same, Bool.not_eq_true']
    exact (Bool.not_eq_true _).mp (by simp [List.isEmpty_iff, aSet_ne_nil])
  | none =>
    simp [aGet_aSet_same, aGet]

theorem ttls_dbHSet (db : DB) (k f v : String) : (dbHSet db k f v).ttls = db.ttls := by
  unfold dbHSet
  cases aGet db.hashes k <;> rfl

theorem ttls_dbExpire_pos (db : DB) (k : String) (secs : Nat) (h : keyExists db k = true) :
    (dbExpire db k secs).ttls = aSet db.ttls k secs := by
  unfold dbExpire
  rw [if_pos h]

/-! ### Lemmas: `HINCRBY` -/

theorem counterVal_incr (db : DB) (k f : String) (d : Int)
    (h : intOrAbsent db k f = true) :
    counterVal (applyCmd db (RCmd.hincrby k (some f) d)) k f = counterVal db k f + d := by
  unfold intOrAbsent at h
  cases hg : dbHGet db k f with
  | none =>
    have e : applyCmd db (RCmd.hincrby k (some f) d) = dbHSet db k f (printInt d) := by
      simp only [applyCmd, hg]
    rw [e]
    unfold counterVal
    rw [dbHGet_dbHSet_same, hg]
    simp [redisParseInt_printInt]
  | some v =>
    rw [hg] at h
    obtain ⟨n, hn⟩ := Option.isSome_iff_exists.mp h
    have e : applyCmd db (RCmd.hincrby k (some f) d) = dbHSet db k f (printInt (n + d)) := by
      simp only [applyCmd, hg, hn]
    rw [e]
    unfold counterVal
    rw [dbHGet_dbHSet_same, hg]
    simp [redisParseInt_printInt, hn]

theorem intOrAbsent_incr (db : DB) (k f : String) (d : Int)
    (h : intOrAbsent db k f = true) :
    intOrAbsent (applyCmd db (RCmd.hincrby k (some f) d)) k f = true := by
  unfold intOrAbsent at h
  cases hg : dbHGet db k f with
  | none =>
    have e : applyCmd db (RCmd.hincrby k (some f) d) = dbHSet db k f (printInt d) := by
      simp only [applyCmd, hg]
    rw [e]
    unfold intOrAbsent
    rw [dbHGet_dbHSet_same]
    simp [redisParseInt_printInt]
  | some v =>
    rw [hg] at h
    obtain ⟨n, hn⟩ := Option.isSome_iff_exists.mp h
    have e : applyCmd db (RCmd.hincrby k (some f) d) = dbHSet db k f (printInt (n + d)) := by
      simp only [applyCmd, hg, hn]
    rw [e]
    unfold intOrAbsent
    rw [dbHGet_dbHSet_same]
    simp [redisParseInt_printInt]

theorem dbHGet_incr_ne (db : DB) (k f : String) (d : Int) (k' f' : String)
    (h : ¬(k = k' ∧ f = f')) :
    dbHGet (applyCmd db (RCmd.hincrby k (some f) d)) k' f' = dbHGet db k' f' := by
  cases hg : dbHGet db k f with
  | none =>
    rw [show applyCmd db (RCmd.hincrby k (some f) d) = dbHSet db k f (printInt d) from by
      simp only [applyCmd, hg]]
    exact dbHGet_dbHSet_ne db k f _ k' f' h
  | some v =>
    cases hn : redisParseInt v with
    | some n =>
      rw [show applyCmd db (RCmd.hincrby k (some f) d) = dbHSet db k f (printInt (n + d)) from by
        simp only [applyCmd, hg, hn]]
      exact dbHGet_dbHSet_ne db k f _ k' f' h
    | none =>
      rw [show applyCmd db (RCmd.hincrby k (some f) d) = db from by
        simp only [applyCmd, hg, hn]]

theorem counterVal_ext (db db' : DB) (k f : String)
    (h : dbHGet db' k f = dbHGet db k f) : counterVal db' k f = counterVal db k f := by
  unfold counterVal
  rw [h]

theorem intOrAbsent_ext (db db' : DB) (k f : String)
    (h : dbHGet db' k f = dbHGet db k f) : intOrAbsent db' k f = intOrAbsent db k f := by
  unfold intOrAbsent
  rw [h]

/-! ### Lemmas: key derivation strings -/

theorem stringAppend_cancel (p a b : String) (h : p ++ a = p ++ b) : a = b := by
  have hd : p.data ++ a.data = p.data ++ b.data := congrArg String.data h
  have := List.append_cancel_left hd
  cases a; cases b; exact congrArg String.mk this

theorem activeField_ne_statusField (l l' : String) :
    ¬(l ++ ":" ++ ACTIVE = l' ++ ":" ++ DEPLOYMENT_SUCCEEDED) := by
  intro h
  have hlen := congrArg (fun s => s.data.getLast?) h
  simp only at hlen
  have e1 : (l ++ ":" ++ ACTIVE).data.getLast? = some 'e' := by
    show ((l ++ ":").data ++ ACTIVE.data).getLast? = some 'e'
    rw [List.getLast?_append_of_ne_nil ((l ++ ":").data)
      (show ACTIVE.data ≠ [] from by decide)]
    decide
  have e2 : (l' ++ ":" ++ DEPLOYMENT_SUCCEEDED).data.getLast? = some 'd' := by
    show ((l' ++ ":").data ++ DEPLOYMENT_SUCCEEDED.data).getLast? = some 'd'
    rw [List.getLast?_append_of_ne_nil ((l' ++ ":").data)
      (show DEPLOYMENT_SUCCEEDED.data ≠ [] from by decide)]
    decide
  rw [e1, e2] at hlen
  exact absurd hlen (by decide)

theorem labelsHash_inj (d1 d2 : String)
    (h : Utilities.getDeploymentKeyLabelsHash d1 = Utilities.getDeploymentKeyLabelsHash d2) :
    d1 = d2 := stringAppend_cancel _ _ _ h

theorem append_prefix_take (p s : String) (n : Nat) (hn : n ≤ p.data.length) :
    (p ++ s).data.take n = p.data.take n := by
  have e : (p ++ s).data = p.data ++ s.data := rfl
  rw [e, List.take_append_of_le_length hn]

/-! ### Lemmas: operation shapes -/

theorem appendColon_ne_empty (l s : String) : ¬(l ++ ":" ++ s = "") := by
  intro h
  have hd : (l.data ++ ':' :: []) ++ s.data = ([] : List Char) := congrArg String.data h
  simp at hd

theorem truthy_some (s : String) (h : ¬(s = "")) : truthy (some s) = true := by
  simp [truthy, h]

/-- Invalid status: `incrementLabelStatusCount` issues nothing (shared by
several claims). -/
theorem incr_invalid_noop (dk label status : String)
    (h : Utilities.isValidDeploymentStatus status = false) :
    RMQ.incrementLabelStatusCount true dk label status = [] := by
  unfold RMQ.incrementLabelStatusCount Utilities.getLabelStatusField
  simp [h, truthy]

/-- Valid status: `incrementLabelStatusCount` issues exactly the one
increment. -/
theorem incr_valid_cmd (dk label status : String)
    (h : Utilities.isValidDeploymentStatus status = true) :
    RMQ.incrementLabelStatusCount true dk label status
      = [RAct.single (RCmd.hincrby (Utilities.getDeploymentKeyLabelsHash dk)
          (some (label ++ ":" ++ status)) 1)] := by
  unfold RMQ.incrementLabelStatusCount Utilities.getLabelStatusField
  simp [h, truthy_some _ (appendColon_ne_empty label status)]

theorem dbHGet_dbExpire (db : DB) (k : String) (secs : Nat) (k' f' : String) :
    dbHGet (dbExpire db k secs) k' f' = dbHGet db k' f' := by
  unfold dbExpire
  split <;> rfl

theorem keyExists_dbExpire (db : DB) (k : String) (secs : Nat) (k' : String) :
    keyExists (dbExpire db k secs) k' = keyExists db k' := by
  unfold dbExpire
  split <;> rfl

/-- The trace of an enabled `setCachedResponse` on an existing key. -/
theorem setCached_trace_old (st : DB) (k url : String) (r : CacheableResponse)
    (h : keyExists st k = true) :
    RMQ.setCachedResponse true st k url r
      = [RAct.single (RCmd.existsKey k),
         RAct.single (RCmd.hset k url (serializeResponse r))] := by
  unfold RMQ.setCachedResponse
  simp [h]

/-- The trace of an enabled `setCachedResponse` on a new key. -/
theorem setCached_trace_new (st : DB) (k url : String) (r : CacheableResponse)
    (h : keyExists st k = false) :
    RMQ.setCachedResponse true st k url r
      = [RAct.single (RCmd.existsKey k),
         RAct.single (RCmd.hset k url (serializeResponse r)),
         RAct.single (RCmd.expire k DEFAULT_EXPIRY)] := by
  unfold RMQ.setCachedResponse
  simp [h]

/-- After an enabled `setCachedResponse`, the field holds the serialized
response. -/
theorem setCached_post_hget (st : DB) (k url : String) (r : CacheableResponse) :
    dbHGet (runActs st (RMQ.setCachedResponse true st k url r)) k url
      = some (serializeResponse r) := by
  cases h : keyExists st k with
  | true =>
    rw [setCached_trace_old st k url r h]
    show dbHGet (dbHSet st k url (serializeResponse r)) k url = some (serializeResponse r)
    exact dbHGet_dbHSet_same st k url (serializeResponse r)
  | false =>
    rw [setCached_trace_new st k url r h]
    show dbHGet (dbExpire (dbHSet st k url (serializeResponse r)) k DEFAULT_EXPIRY) k url
      = some (serializeResponse r)
    rw [dbHGet_dbExpire]
    exact dbHGet_dbHSet_same st k url (serializeResponse r)

theorem serializeResponse_ne_empty (r : CacheableResponse) : ¬(serializeResponse r = "") := by
  intro h
  have hd : ('\x7b' :: printMembers [("statusCode", Json.num r.statusCode), ("body", r.body)])
      = ([] : List Char) := congrArg String.data h
  simp at hd

/-! ## The claims -/

/-- C5: each of the three hash-key derivation functions is deterministic (a
pure function of its argument) and injective: the derived keys of two
deployment keys coincide exactly when the deployment keys do, for the scope
hash, the labels hash and the clients hash alike. -/
theorem c5_key_derivation_injective (k1 k2 : String) :
    (Utilities.getDeploymentKeyHash k1 = Utilities.getDeploymentKeyHash k2 ↔ k1 = k2) ∧
    (Utilities.getDeploymentKeyLabelsHash k1 = Utilities.getDeploymentKeyLabelsHash k2
      ↔ k1 = k2) ∧
    (Utilities.getDeploymentKeyClientsHash k1 = Utilities.getDeploymentKeyClientsHash k2
      ↔ k1 = k2) :=
  ⟨⟨fun h => stringAppend_cancel _ _ _ h, fun h => by rw [h]⟩,
   ⟨fun h => stringAppend_cancel _ _ _ h, fun h => by rw [h]⟩,
   ⟨fun h => stringAppend_cancel _ _ _ h, fun h => by rw [h]⟩⟩

/-- C9 (counterexample): the claimed overlap equation is false at `s = "x"`:
`getDeploymentKeyHash ("Labels:" ++ "x")` is `"deploymentKey:Labels:x"`,
not `"deploymentKeyLabels:x"`. -/
theorem c9_counterexample :
    Utilities.getDeploymentKeyHash ("Labels:" ++ "x")
      ≠ Utilities.getDeploymentKeyLabelsHash "x" := by decide

/-- C9 (amended): the ranges of the three key-derivation functions are in
fact pairwise disjoint — their prefixes first differ at index 13 — so keys
derived by different functions never collide, for any pair of inputs. -/
theorem c9_ranges_pairwise_disjoint (s t : String) :
    Utilities.getDeploymentKeyHash s ≠ Utilities.getDeploymentKeyLabelsHash t ∧
    Utilities.getDeploymentKeyHash s ≠ Utilities.getDeploymentKeyClientsHash t ∧
    Utilities.getDeploymentKeyLabelsHash s ≠ Utilities.getDeploymentKeyClientsHash t := by
  refine ⟨fun h => ?_, fun h => ?_, fun h => ?_⟩
  · have h14 := congrArg (fun x : String => x.data.take 14) h
    simp only at h14
    rw [show (Utilities.getDeploymentKeyHash s).data.take 14
          = "deploymentKey:".data.take 14 from
        append_prefix_take "deploymentKey:" s 14 (by decide),
      show (Utilities.getDeploymentKeyLabelsHash t).data.take 14
          = "deploymentKeyLabels:".data.take 14 from
        append_prefix_take "deploymentKeyLabels:" t 14 (by decide)] at h14
    exact absurd h14 (by decide)
  · have h14 := congrArg (fun x : String => x.data.take 14) h
    simp only at h14
    rw [show (Utilities.getDeploymentKeyHash s).data.take 14
          = "deploymentKey:".data.take 14 from
        append_prefix_take "deploymentKey:" s 14 (by decide),
      show (Utilities.getDeploymentKeyClientsHash t).data.take 14
          = "deploymentKeyClients:".data.take 14 from
        append_prefix_take "deploymentKeyClients:" t 14 (by decide)] at h14
    exact absurd h14 (by decide)
  · have h14 := congrArg (fun x : String => x.data.take 14) h
    simp only at h14
    rw [show (Utilities.getDeploymentKeyLabelsHash s).data.take 14
          = "deploymentKeyLabels:".data.take 14 from
        append_prefix_take "deploymentKeyLabels:" s 14 (by decide),
      show (Utilities.getDeploymentKeyClientsHash t).data.take 14
          = "deploymentKeyClients:".data.take 14 from
        append_prefix_take "deploymentKeyClients:" t 14 (by decide)] at h14
    exact absurd h14 (by decide)

/-- C8: with the store unconfigured (`isEnabled = false`), every Cache Store
and Metrics Ledger operation returns its default value (absent/null for
reads, success for writes) with an empty command trace — the store is never
touched and nothing is raised — while `checkHealth` alone fails, with the
not-enabled error. -/
theorem c8_disabled_degrades (ops metrics : DB) (expiryKey url dk label status cid : String)
    (resp : CacheableResponse) (pdk plabel flabel : Option String) (toLabel : String) :
    RMA.checkHealth false = (.error .notEnabled, ([], [])) ∧
    RMA.getCachedResponse false ops expiryKey url = (.ok none, []) ∧
    RMA.setCachedResponse false ops expiryKey url resp = [] ∧
    RMA.incrementLabelStatusCount false dk label status = [] ∧
    RMA.clearMetricsForDeploymentKey false dk = [] ∧
    RMA.getMetricsWithDeploymentKey false metrics dk = (.ok none, []) ∧
    RMA.recordUpdate false dk label pdk plabel = [] ∧
    RMA.removeDeploymentKeyClientActiveLabel false dk cid = [] ∧
    RMA.invalidateCache false expiryKey = [] ∧
    RMA.getCurrentActiveLabel false metrics dk cid = (none, []) ∧
    RMA.updateActiveAppForClient false dk cid toLabel flabel = [] :=
  ⟨rfl, rfl, rfl, rfl, rfl, rfl, rfl, rfl, rfl, rfl, rfl⟩

/-- C10: operation for operation (the constructor aside), the Q-promise
manager (`RMQ`, redis-manager.ts) and the async/await manager (`RMA`,
part_000) are observationally equivalent — given the same enabled flag and
the same store state they return the same result and issue the same command
traces. -/
theorem c10_versions_equivalent :
    (∀ e, RMQ.checkHealth e = RMA.checkHealth e) ∧
    (∀ e ops k u, RMQ.getCachedResponse e ops k u = RMA.getCachedResponse e ops k u) ∧
    (∀ e ops k u r, RMQ.setCachedResponse e ops k u r = RMA.setCachedResponse e ops k u r) ∧
    (∀ e d l s, RMQ.incrementLabelStatusCount e d l s
        = RMA.incrementLabelStatusCount e d l s) ∧
    (∀ e d, RMQ.clearMetricsForDeploymentKey e d = RMA.clearMetricsForDeploymentKey e d) ∧
    (∀ e m d, RMQ.getMetricsWithDeploymentKey e m d = RMA.getMetricsWithDeploymentKey e m d) ∧
    (∀ e d l pd pl, RMQ.recordUpdate e d l pd pl = RMA.recordUpdate e d l pd pl) ∧
    (∀ e d c, RMQ.removeDeploymentKeyClientActiveLabel e d c
        = RMA.removeDeploymentKeyClientActiveLabel e d c) ∧
    (∀ e k, RMQ.invalidateCache e k = RMA.invalidateCache e k) ∧
    (∀ po pm, RMQ.close po pm = RMA.close po pm) ∧
    (∀ e m d c, RMQ.getCurrentActiveLabel e m d c = RMA.getCurrentActiveLabel e m d c) ∧
    (∀ e d c t f, RMQ.updateActiveAppForClient e d c t f
        = RMA.updateActiveAppForClient e d c t f) :=
  ⟨fun _ => rfl, fun _ _ _ _ => rfl, fun _ _ _ _ _ => rfl, fun _ _ _ _ => rfl,
   fun _ _ => rfl, fun _ _ _ => rfl, fun _ _ _ _ _ => rfl, fun _ _ _ => rfl,
   fun _ _ => rfl, fun _ _ => rfl, fun _ _ _ _ => rfl, fun _ _ _ _ _ => rfl⟩

/-- C7: a status outside the closed enumeration makes
`incrementLabelStatusCount` a silent no-op — no store command, the store and
the metrics read unchanged, nothing raised — while a valid status issues
exactly one `HINCRBY` of `+1` on the `label:status` field of the labels
hash. -/
theorem c7_invalid_status_noop (st : DB) (dk label status : String) :
    (Utilities.isValidDeploymentStatus status = false →
      RMQ.incrementLabelStatusCount true dk label status = [] ∧
      runActs st (RMQ.incrementLabelStatusCount true dk label status) = st ∧
      RMQ.getMetricsWithDeploymentKey true
          (runActs st (RMQ.incrementLabelStatusCount true dk label status)) dk
        = RMQ.getMetricsWithDeploymentKey true st dk) ∧
    (Utilities.isValidDeploymentStatus status = true →
      RMQ.incrementLabelStatusCount true dk label status
        = [RAct.single (RCmd.hincrby (Utilities.getDeploymentKeyLabelsHash dk)
            (some (label ++ ":" ++ status)) 1)]) := by
  constructor
  · intro h
    have he := incr_invalid_noop dk label status h
    exact ⟨he, by rw [he]; rfl, by rw [he]; rfl⟩
  · intro h
    exact incr_valid_cmd dk label status h

/-- C2 (counterexample): at a stored value `"abc"` — not a valid integer by
either the strict or the JS reading — `getMetricsWithDeploymentKey` does not
fail: it returns `ok` with the field bound to the NaN marker, refuting
"fails with MalformedDataError if and only if some stored value is not a
valid integer". -/
theorem c2_counterexample :
    redisParseInt "abc" = none ∧ jsParseInt "abc" = none ∧
    RMQ.getMetricsWithDeploymentKey true
        ⟨[("deploymentKeyLabels:d", [("f", "abc")])], []⟩ "d"
      = (.ok (some [("f", none)]), [RAct.single (RCmd.hgetall "deploymentKeyLabels:d")]) :=
  ⟨rfl, rfl, rfl⟩

/-- C2 (amended): `getMetricsWithDeploymentKey` never fails on stored data:
it returns `ok` with every stored string passed through JS `parseInt(·, 10)`
semantics, so a value with no integer prefix is silently coerced to the NaN
marker and kept in the returned map — a parse failure is never propagated as
an error because the parse cannot fail. -/
theorem c2_parse_never_fails (st : DB) (dk : String) :
    RMQ.getMetricsWithDeploymentKey true st dk
      = (.ok (some ((dbHGetAll st (Utilities.getDeploymentKeyLabelsHash dk)).map
            (fun p => (p.1, jsParseInt p.2)))),
         [RAct.single (RCmd.hgetall (Utilities.getDeploymentKeyLabelsHash dk))]) ∧
    (∀ f v, (f, v) ∈ dbHGetAll st (Utilities.getDeploymentKeyLabelsHash dk) →
      (f, jsParseInt v) ∈ (dbHGetAll st (Utilities.getDeploymentKeyLabelsHash dk)).map
          (fun p => (p.1, jsParseInt p.2))) :=
  ⟨rfl, fun _ _ hm => List.mem_map_of_mem _ hm⟩

/-- C4 (counterexample): `recordTransition` with an empty current label is
not a silent no-op: the active-count derivation does yield the invalid
marker, yet the operation still enqueues one batch of two `HINCRBY`
commands — one carrying the invalid marker as its field — and running it
creates the field `":DeploymentSucceeded"` on the current labels hash. -/
theorem c4_counterexample :
    Utilities.getLabelActiveCountField "" = none ∧
    (RMQ.recordUpdate true "d" "" none none).length = 1 ∧
    traceCmds (RMQ.recordUpdate true "d" "" none none)
      = [RCmd.hincrby "deploymentKeyLabels:d" none 1,
         RCmd.hincrby "deploymentKeyLabels:d" (some ":DeploymentSucceeded") 1] ∧
    dbHGet (runActs emptyDB (RMQ.recordUpdate true "d" "" none none))
        "deploymentKeyLabels:d" ":DeploymentSucceeded" = some "1" :=
  ⟨rfl, rfl, rfl, rfl⟩

/-- C4 (amended): the no-op-on-invalid-input rule holds for
`incrementLabelStatusCount` (a status outside the enumeration issues no
command and raises nothing), but not for `recordTransition`: with an empty
current label the active-count derivation yields the invalid marker, yet the
operation still issues its batch — the marker is passed through as an
`HINCRBY` field and the `":DeploymentSucceeded"` counter is still written. -/
theorem c4_no_op_only_for_increment (st : DB) (dk label status d2 : String) :
    (Utilities.isValidDeploymentStatus status = false →
      RMQ.incrementLabelStatusCount true dk label status = [] ∧
      runActs st (RMQ.incrementLabelStatusCount true dk label status) = st) ∧
    Utilities.getLabelActiveCountField "" = none ∧
    RMQ.recordUpdate true d2 "" none none
      = [RAct.batch [RCmd.hincrby (Utilities.getDeploymentKeyLabelsHash d2) none 1,
                     RCmd.hincrby (Utilities.getDeploymentKeyLabelsHash d2)
                       (some ("" ++ ":" ++ DEPLOYMENT_SUCCEEDED)) 1]] := by
  refine ⟨fun h => ?_, rfl, rfl⟩
  have he := incr_invalid_noop dk label status h
  exact ⟨he, by rw [he]; rfl⟩

/-- C3: `setCachedResponse` writes the field unconditionally; the
3600-second expiry is attempted on the scope key exactly once if and only if
the key did not exist before this write (and is then actually applied); a
second write to a still-live (existing) scope key issues no expiry and
leaves the TTL table — hence the remaining TTL — untouched. -/
theorem c3_lazy_expiry (st : DB) (k url : String) (r : CacheableResponse) :
    dbHGet (runActs st (RMQ.setCachedResponse true st k url r)) k url
      = some (serializeResponse r) ∧
    RCmd.hset k url (serializeResponse r)
      ∈ traceCmds (RMQ.setCachedResponse true st k url r) ∧
    expireAttempts (RMQ.setCachedResponse true st k url r)
      = (if keyExists st k then 0 else 1) ∧
    (RCmd.expire k DEFAULT_EXPIRY ∈ traceCmds (RMQ.setCachedResponse true st k url r)
      ↔ keyExists st k = false) ∧
    (keyExists st k = true →
      (runActs st (RMQ.setCachedResponse true st k url r)).ttls = st.ttls) ∧
    (keyExists st k = false →
      aGet (runActs st (RMQ.setCachedResponse true st k url r)).ttls k
        = some DEFAULT_EXPIRY) := by
  cases h : keyExists st k with
  | true =>
    rw [setCached_trace_old st k url r h]
    refine ⟨?_, ?_, ?_, ?_, ?_, ?_⟩
    · show dbHGet (dbHSet st k url (serializeResponse r)) k url = some (serializeResponse r)
      exact dbHGet_dbHSet_same st k url (serializeResponse r)
    · simp [traceCmds]
    · simp [expireAttempts, traceCmds]
    · simp [traceCmds]
    · intro _
      show (dbHSet st k url (serializeResponse r)).ttls = st.ttls
      exact ttls_dbHSet st k url (serializeResponse r)
    · intro hf
      exact absurd hf (by decide)
  | false =>
    rw [setCached_trace_new st k url r h]
    refine ⟨?_, ?_, ?_, ?_, ?_, ?_⟩
    · show dbHGet (dbExpire (dbHSet st k url (serializeResponse r)) k DEFAULT_EXPIRY) k url
        = some (serializeResponse r)
      rw [dbHGet_dbExpire]
      exact dbHGet_dbHSet_same st k url (serializeResponse r)
    · simp [traceCmds]
    · simp [expireAttempts, traceCmds]
    · simp [traceCmds]
    · intro ht
      exact absurd ht (by decide)
    · intro _
      show aGet (dbExpire (dbHSet st k url (serializeResponse r)) k DEFAULT_EXPIRY).ttls k
        = some DEFAULT_EXPIRY
      rw [ttls_dbExpire_pos _ _ _ (keyExists_dbHSet st k url (serializeResponse r)),
        aGet_aSet_same]

/-- C6: on the enabled component, `setCachedResponse (scope, url, r)` then
`getCachedResponse (scope, url)` returns a response structurally equal to
`r`: the stored encoding decodes back to the original (round-trip fidelity
of the modelled JSON codec). -/
theorem c6_set_get_roundtrip (st : DB) (k url : String) (r : CacheableResponse)
    (hwf : wfResponse r = true) :
    (RMQ.getCachedResponse true (runActs st (RMQ.setCachedResponse true st k url r)) k url).1
      = .ok (some r) := by
  have hget := setCached_post_hget st k url r
  unfold RMQ.getCachedResponse
  rw [hget]
  simp [serializeResponse_ne_empty r, deserialize_serialize r hwf]

/-- Witness for C6 at a concrete response. -/
theorem c6_set_get_roundtrip_witness :
    (RMQ.getCachedResponse true
        (runActs emptyDB (RMQ.setCachedResponse true emptyDB "scope" "url"
          ⟨200, Json.arr [Json.str "body", Json.num (-7)]⟩)) "scope" "url").1
      = .ok (some ⟨200, Json.arr [Json.str "body", Json.num (-7)]⟩) :=
  c6_set_get_roundtrip emptyDB "scope" "url"
    ⟨200, Json.arr [Json.str "body", Json.num (-7)]⟩ (by decide)

/-- C1: with a truthy previous pair given, `recordUpdate` issues exactly one
atomic batch of exactly three `HINCRBY` deltas — `+1` on `L2:Active` and
`+1` on `L2:DeploymentSucceeded` in D2's labels hash, and `-1` on
`L1:Active` in D1's labels hash — so the only states a concurrent reader can
observe are the pre-state (no delta applied) and the post-state (all three
applied); at the post-state the three counters have moved by exactly those
deltas and every other hash field is untouched. -/
theorem c1_recordTransition_atomic (st : DB) (D2 L2 D1 L1 k f : String)
    (hL2 : ¬(L2 = "")) (hD1 : ¬(D1 = "")) (hL1 : ¬(L1 = "")) (hDD : ¬(D1 = D2))
    (h1 : intOrAbsent st (Utilities.getDeploymentKeyLabelsHash D2) (L2 ++ ":" ++ ACTIVE) = true)
    (h2 : intOrAbsent st (Utilities.getDeploymentKeyLabelsHash D2) (L2 ++ ":" ++ DEPLOYMENT_SUCCEEDED) = true)
    (h3 : intOrAbsent st (Utilities.getDeploymentKeyLabelsHash D1) (L1 ++ ":" ++ ACTIVE) = true)
    (hother : ¬(k = (Utilities.getDeploymentKeyLabelsHash D2) ∧ (f = (L2 ++ ":" ++ ACTIVE) ∨ f = (L2 ++ ":" ++ DEPLOYMENT_SUCCEEDED))) ∧ ¬(k = (Utilities.getDeploymentKeyLabelsHash D1) ∧ f = (L1 ++ ":" ++ ACTIVE))) :
    RMQ.recordUpdate true D2 L2 (some D1) (some L1) = [RAct.batch [RCmd.hincrby (Utilities.getDeploymentKeyLabelsHash D2) (some (L2 ++ ":" ++ ACTIVE)) 1, RCmd.hincrby (Utilities.getDeploymentKeyLabelsHash D2) (some (L2 ++ ":" ++ DEPLOYMENT_SUCCEEDED)) 1, RCmd.hincrby (Utilities.getDeploymentKeyLabelsHash D1) (some (L1 ++ ":" ++ ACTIVE)) (-1)]] ∧
    observableStates st (RMQ.recordUpdate true D2 L2 (some D1) (some L1)) = [st, runActs st (RMQ.recordUpdate true D2 L2 (some D1) (some L1))] ∧
    counterVal (runActs st (RMQ.recordUpdate true D2 L2 (some D1) (some L1))) (Utilities.getDeploymentKeyLabelsHash D2) (L2 ++ ":" ++ ACTIVE) = counterVal st (Utilities.getDeploymentKeyLabelsHash D2) (L2 ++ ":" ++ ACTIVE) + 1 ∧
    counterVal (runActs st (RMQ.recordUpdate true D2 L2 (some D1) (some L1))) (Utilities.getDeploymentKeyLabelsHash D2) (L2 ++ ":" ++ DEPLOYMENT_SUCCEEDED) = counterVal st (Utilities.getDeploymentKeyLabelsHash D2) (L2 ++ ":" ++ DEPLOYMENT_SUCCEEDED) + 1 ∧
    counterVal (runActs st (RMQ.recordUpdate true D2 L2 (some D1) (some L1))) (Utilities.getDeploymentKeyLabelsHash D1) (L1 ++ ":" ++ ACTIVE) = counterVal st (Utilities.getDeploymentKeyLabelsHash D1) (L1 ++ ":" ++ ACTIVE) - 1 ∧
    dbHGet (runActs st (RMQ.recordUpdate true D2 L2 (some D1) (some L1))) k f = dbHGet st k f := by
  have hvalid : Utilities.isValidDeploymentStatus DEPLOYMENT_SUCCEEDED = true := by decide
  have htr : RMQ.recordUpdate true D2 L2 (some D1) (some L1) = [RAct.batch [RCmd.hincrby (Utilities.getDeploymentKeyLabelsHash D2) (some (L2 ++ ":" ++ ACTIVE)) 1, RCmd.hincrby (Utilities.getDeploymentKeyLabelsHash D2) (some (L2 ++ ":" ++ DEPLOYMENT_SUCCEEDED)) 1, RCmd.hincrby (Utilities.getDeploymentKeyLabelsHash D1) (some (L1 ++ ":" ++ ACTIVE)) (-1)]] := by
    unfold RMQ.recordUpdate
    simp [truthy_some D1 hD1, truthy_some L1 hL1, Utilities.getLabelActiveCountField,
      Utilities.getLabelStatusField, hvalid, hL2, hL1]
  have hstep : runActs st (RMQ.recordUpdate true D2 L2 (some D1) (some L1)) = (applyCmd (applyCmd (applyCmd st (RCmd.hincrby (Utilities.getDeploymentKeyLabelsHash D2) (some (L2 ++ ":" ++ ACTIVE)) 1)) (RCmd.hincrby (Utilities.getDeploymentKeyLabelsHash D2) (some (L2 ++ ":" ++ DEPLOYMENT_SUCCEEDED)) 1)) (RCmd.hincrby (Utilities.getDeploymentKeyLabelsHash D1) (some (L1 ++ ":" ++ ACTIVE)) (-1))) := by
    rw [htr]; rfl
  have hne_a2s2 : ¬((L2 ++ ":" ++ ACTIVE) = (L2 ++ ":" ++ DEPLOYMENT_SUCCEEDED)) := activeField_ne_statusField L2 L2
  have hne_s2a2 : ¬((L2 ++ ":" ++ DEPLOYMENT_SUCCEEDED) = (L2 ++ ":" ++ ACTIVE)) := fun he => hne_a2s2 he.symm
  have hhash : ¬((Utilities.getDeploymentKeyLabelsHash D2) = (Utilities.getDeploymentKeyLabelsHash D1)) := fun he => hDD (labelsHash_inj D2 D1 he).symm
  have hhash' : ¬((Utilities.getDeploymentKeyLabelsHash D1) = (Utilities.getDeploymentKeyLabelsHash D2)) := fun he => hDD (labelsHash_inj D1 D2 he)
  -- target (D2 hash, L2:Active)
  have cvA1 : counterVal (applyCmd st (RCmd.hincrby (Utilities.getDeploymentKeyLabelsHash D2) (some (L2 ++ ":" ++ ACTIVE)) 1)) (Utilities.getDeploymentKeyLabelsHash D2) (L2 ++ ":" ++ ACTIVE) = counterVal st (Utilities.getDeploymentKeyLabelsHash D2) (L2 ++ ":" ++ ACTIVE) + 1 :=
    counterVal_incr st (Utilities.getDeploymentKeyLabelsHash D2) (L2 ++ ":" ++ ACTIVE) 1 h1
  have gA2 : dbHGet (applyCmd (applyCmd st (RCmd.hincrby (Utilities.getDeploymentKeyLabelsHash D2) (some (L2 ++ ":" ++ ACTIVE)) 1)) (RCmd.hincrby (Utilities.getDeploymentKeyLabelsHash D2) (some (L2 ++ ":" ++ DEPLOYMENT_SUCCEEDED)) 1)) (Utilities.getDeploymentKeyLabelsHash D2) (L2 ++ ":" ++ ACTIVE) = dbHGet (applyCmd st (RCmd.hincrby (Utilities.getDeploymentKeyLabelsHash D2) (some (L2 ++ ":" ++ ACTIVE)) 1)) (Utilities.getDeploymentKeyLabelsHash D2) (L2 ++ ":" ++ ACTIVE) :=
    dbHGet_incr_ne (applyCmd st (RCmd.hincrby (Utilities.getDeploymentKeyLabelsHash D2) (some (L2 ++ ":" ++ ACTIVE)) 1)) (Utilities.getDeploymentKeyLabelsHash D2) (L2 ++ ":" ++ DEPLOYMENT_SUCCEEDED) 1 (Utilities.getDeploymentKeyLabelsHash D2) (L2 ++ ":" ++ ACTIVE) (fun hc => hne_s2a2 hc.2)
  have gA3 : dbHGet (applyCmd (applyCmd (applyCmd st (RCmd.hincrby (Utilities.getDeploymentKeyLabelsHash D2) (some (L2 ++ ":" ++ ACTIVE)) 1)) (RCmd.hincrby (Utilities.getDeploymentKeyLabelsHash D2) (some (L2 ++ ":" ++ DEPLOYMENT_SUCCEEDED)) 1)) (RCmd.hincrby (Utilities.getDeploymentKeyLabelsHash D1) (some (L1 ++ ":" ++ ACTIVE)) (-1))) (Utilities.getDeploymentKeyLabelsHash D2) (L2 ++ ":" ++ ACTIVE) = dbHGet (applyCmd (applyCmd st (RCmd.hincrby (Utilities.getDeploymentKeyLabelsHash D2) (some (L2 ++ ":" ++ ACTIVE)) 1)) (RCmd.hincrby (Utilities.getDeploymentKeyLabelsHash D2) (some (L2 ++ ":" ++ DEPLOYMENT_SUCCEEDED)) 1)) (Utilities.getDeploymentKeyLabelsHash D2) (L2 ++ ":" ++ ACTIVE) :=
    dbHGet_incr_ne (applyCmd (applyCmd st (RCmd.hincrby (Utilities.getDeploymentKeyLabelsHash D2) (some (L2 ++ ":" ++ ACTIVE)) 1)) (RCmd.hincrby (Utilities.getDeploymentKeyLabelsHash D2) (some (L2 ++ ":" ++ DEPLOYMENT_SUCCEEDED)) 1)) (Utilities.getDeploymentKeyLabelsHash D1) (L1 ++ ":" ++ ACTIVE) (-1) (Utilities.getDeploymentKeyLabelsHash D2) (L2 ++ ":" ++ ACTIVE) (fun hc => hhash' hc.1)
  -- target (D2 hash, L2:DeploymentSucceeded)
  have gS1 : dbHGet (applyCmd st (RCmd.hincrby (Utilities.getDeploymentKeyLabelsHash D2) (some (L2 ++ ":" ++ ACTIVE)) 1)) (Utilities.getDeploymentKeyLabelsHash D2) (L2 ++ ":" ++ DEPLOYMENT_SUCCEEDED) = dbHGet st (Utilities.getDeploymentKeyLabelsHash D2) (L2 ++ ":" ++ DEPLOYMENT_SUCCEEDED) :=
    dbHGet_incr_ne st (Utilities.getDeploymentKeyLabelsHash D2) (L2 ++ ":" ++ ACTIVE) 1 (Utilities.getDeploymentKeyLabelsHash D2) (L2 ++ ":" ++ DEPLOYMENT_SUCCEEDED) (fun hc => hne_a2s2 hc.2)
  have iS1 : intOrAbsent (applyCmd st (RCmd.hincrby (Utilities.getDeploymentKeyLabelsHash D2) (some (L2 ++ ":" ++ ACTIVE)) 1)) (Utilities.getDeploymentKeyLabelsHash D2) (L2 ++ ":" ++ DEPLOYMENT_SUCCEEDED) = true :=
    (intOrAbsent_ext st (applyCmd st (RCmd.hincrby (Utilities.getDeploymentKeyLabelsHash D2) (some (L2 ++ ":" ++ ACTIVE)) 1)) (Utilities.getDeploymentKeyLabelsHash D2) (L2 ++ ":" ++ DEPLOYMENT_SUCCEEDED) gS1).trans h2
  have cvS2 : counterVal (applyCmd (applyCmd st (RCmd.hincrby (Utilities.getDeploymentKeyLabelsHash D2) (some (L2 ++ ":" ++ ACTIVE)) 1)) (RCmd.hincrby (Utilities.getDeploymentKeyLabelsHash D2) (some (L2 ++ ":" ++ DEPLOYMENT_SUCCEEDED)) 1)) (Utilities.getDeploymentKeyLabelsHash D2) (L2 ++ ":" ++ DEPLOYMENT_SUCCEEDED) = counterVal (applyCmd st (RCmd.hincrby (Utilities.getDeploymentKeyLabelsHash D2) (some (L2 ++ ":" ++ ACTIVE)) 1)) (Utilities.getDeploymentKeyLabelsHash D2) (L2 ++ ":" ++ DEPLOYMENT_SUCCEEDED) + 1 :=
    counterVal_incr (applyCmd st (RCmd.hincrby (Utilities.getDeploymentKeyLabelsHash D2) (some (L2 ++ ":" ++ ACTIVE)) 1)) (Utilities.getDeploymentKeyLabelsHash D2) (L2 ++ ":" ++ DEPLOYMENT_SUCCEEDED) 1 iS1
  have gS3 : dbHGet (applyCmd (applyCmd (applyCmd st (RCmd.hincrby (Utilities.getDeploymentKeyLabelsHash D2) (some (L2 ++ ":" ++ ACTIVE)) 1)) (RCmd.hincrby (Utilities.getDeploymentKeyLabelsHash D2) (some (L2 ++ ":" ++ DEPLOYMENT_SUCCEEDED)) 1)) (RCmd.hincrby (Utilities.getDeploymentKeyLabelsHash D1) (some (L1 ++ ":" ++ ACTIVE)) (-1))) (Utilities.getDeploymentKeyLabelsHash D2) (L2 ++ ":" ++ DEPLOYMENT_SUCCEEDED) = dbHGet (applyCmd (applyCmd st (RCmd.hincrby (Utilities.getDeploymentKeyLabelsHash D2) (some (L2 ++ ":" ++ ACTIVE)) 1)) (RCmd.hincrby (Utilities.getDeploymentKeyLabelsHash D2) (some (L2 ++ ":" ++ DEPLOYMENT_SUCCEEDED)) 1)) (Utilities.getDeploymentKeyLabelsHash D2) (L2 ++ ":" ++ DEPLOYMENT_SUCCEEDED) :=
    dbHGet_incr_ne (applyCmd (applyCmd st (RCmd.hincrby (Utilities.getDeploymentKeyLabelsHash D2) (some (L2 ++ ":" ++ ACTIVE)) 1)) (RCmd.hincrby (Utilities.getDeploymentKeyLabelsHash D2) (some (L2 ++ ":" ++ DEPLOYMENT_SUCCEEDED)) 1)) (Utilities.getDeploymentKeyLabelsHash D1) (L1 ++ ":" ++ ACTIVE) (-1) (Utilities.getDeploymentKeyLabelsHash D2) (L2 ++ ":" ++ DEPLOYMENT_SUCCEEDED) (fun hc => hhash' hc.1)
  -- target (D1 hash, L1:Active)
  have gD1 : dbHGet (applyCmd st (RCmd.hincrby (Utilities.getDeploymentKeyLabelsHash D2) (some (L2 ++ ":" ++ ACTIVE)) 1)) (Utilities.getDeploymentKeyLabelsHash D1) (L1 ++ ":" ++ ACTIVE) = dbHGet st (Utilities.getDeploymentKeyLabelsHash D1) (L1 ++ ":" ++ ACTIVE) :=
    dbHGet_incr_ne st (Utilities.getDeploymentKeyLabelsHash D2) (L2 ++ ":" ++ ACTIVE) 1 (Utilities.getDeploymentKeyLabelsHash D1) (L1 ++ ":" ++ ACTIVE) (fun hc => hhash hc.1)
  have gD2 : dbHGet (applyCmd (applyCmd st (RCmd.hincrby (Utilities.getDeploymentKeyLabelsHash D2) (some (L2 ++ ":" ++ ACTIVE)) 1)) (RCmd.hincrby (Utilities.getDeploymentKeyLabelsHash D2) (some (L2 ++ ":" ++ DEPLOYMENT_SUCCEEDED)) 1)) (Utilities.getDeploymentKeyLabelsHash D1) (L1 ++ ":" ++ ACTIVE) = dbHGet (applyCmd st (RCmd.hincrby (Utilities.getDeploymentKeyLabelsHash D2) (some (L2 ++ ":" ++ ACTIVE)) 1)) (Utilities.getDeploymentKeyLabelsHash D1) (L1 ++ ":" ++ ACTIVE) :=
    dbHGet_incr_ne (applyCmd st (RCmd.hincrby (Utilities.getDeploymentKeyLabelsHash D2) (some (L2 ++ ":" ++ ACTIVE)) 1)) (Utilities.getDeploymentKeyLabelsHash D2) (L2 ++ ":" ++ DEPLOYMENT_SUCCEEDED) 1 (Utilities.getDeploymentKeyLabelsHash D1) (L1 ++ ":" ++ ACTIVE) (fun hc => hhash hc.1)
  have iD2 : intOrAbsent (applyCmd (applyCmd st (RCmd.hincrby (Utilities.getDeploymentKeyLabelsHash D2) (some (L2 ++ ":" ++ ACTIVE)) 1)) (RCmd.hincrby (Utilities.getDeploymentKeyLabelsHash D2) (some (L2 ++ ":" ++ DEPLOYMENT_SUCCEEDED)) 1)) (Utilities.getDeploymentKeyLabelsHash D1) (L1 ++ ":" ++ ACTIVE) = true :=
    ((intOrAbsent_ext (applyCmd st (RCmd.hincrby (Utilities.getDeploymentKeyLabelsHash D2) (some (L2 ++ ":" ++ ACTIVE)) 1)) (applyCmd (applyCmd st (RCmd.hincrby (Utilities.getDeploymentKeyLabelsHash D2) (some (L2 ++ ":" ++ ACTIVE)) 1)) (RCmd.hincrby (Utilities.getDeploymentKeyLabelsHash D2) (some (L2 ++ ":" ++ DEPLOYMENT_SUCCEEDED)) 1)) (Utilities.getDeploymentKeyLabelsHash D1) (L1 ++ ":" ++ ACTIVE) gD2).trans
      (intOrAbsent_ext st (applyCmd st (RCmd.hincrby (Utilities.getDeploymentKeyLabelsHash D2) (some (L2 ++ ":" ++ ACTIVE)) 1)) (Utilities.getDeploymentKeyLabelsHash D1) (L1 ++ ":" ++ ACTIVE) gD1)).trans h3
  have cvD3 : counterVal (applyCmd (applyCmd (applyCmd st (RCmd.hincrby (Utilities.getDeploymentKeyLabelsHash D2) (some (L2 ++ ":" ++ ACTIVE)) 1)) (RCmd.hincrby (Utilities.getDeploymentKeyLabelsHash D2) (some (L2 ++ ":" ++ DEPLOYMENT_SUCCEEDED)) 1)) (RCmd.hincrby (Utilities.getDeploymentKeyLabelsHash D1) (some (L1 ++ ":" ++ ACTIVE)) (-1))) (Utilities.getDeploymentKeyLabelsHash D1) (L1 ++ ":" ++ ACTIVE) = counterVal (applyCmd (applyCmd st (RCmd.hincrby (Utilities.getDeploymentKeyLabelsHash D2) (some (L2 ++ ":" ++ ACTIVE)) 1)) (RCmd.hincrby (Utilities.getDeploymentKeyLabelsHash D2) (some (L2 ++ ":" ++ DEPLOYMENT_SUCCEEDED)) 1)) (Utilities.getDeploymentKeyLabelsHash D1) (L1 ++ ":" ++ ACTIVE) + (-1) :=
    counterVal_incr (applyCmd (applyCmd st (RCmd.hincrby (Utilities.getDeploymentKeyLabelsHash D2) (some (L2 ++ ":" ++ ACTIVE)) 1)) (RCmd.hincrby (Utilities.getDeploymentKeyLabelsHash D2) (some (L2 ++ ":" ++ DEPLOYMENT_SUCCEEDED)) 1)) (Utilities.getDeploymentKeyLabelsHash D1) (L1 ++ ":" ++ ACTIVE) (-1) iD2
  -- frame target (k, f)
  have gF1 : dbHGet (applyCmd st (RCmd.hincrby (Utilities.getDeploymentKeyLabelsHash D2) (some (L2 ++ ":" ++ ACTIVE)) 1)) k f = dbHGet st k f :=
    dbHGet_incr_ne st (Utilities.getDeploymentKeyLabelsHash D2) (L2 ++ ":" ++ ACTIVE) 1 k f (fun hc => hother.1 ⟨hc.1.symm, Or.inl hc.2.symm⟩)
  have gF2 : dbHGet (applyCmd (applyCmd st (RCmd.hincrby (Utilities.getDeploymentKeyLabelsHash D2) (some (L2 ++ ":" ++ ACTIVE)) 1)) (RCmd.hincrby (Utilities.getDeploymentKeyLabelsHash D2) (some (L2 ++ ":" ++ DEPLOYMENT_SUCCEEDED)) 1)) k f = dbHGet (applyCmd st (RCmd.hincrby (Utilities.getDeploymentKeyLabelsHash D2) (some (L2 ++ ":" ++ ACTIVE)) 1)) k f :=
    dbHGet_incr_ne (applyCmd st (RCmd.hincrby (Utilities.getDeploymentKeyLabelsHash D2) (some (L2 ++ ":" ++ ACTIVE)) 1)) (Utilities.getDeploymentKeyLabelsHash D2) (L2 ++ ":" ++ DEPLOYMENT_SUCCEEDED) 1 k f (fun hc => hother.1 ⟨hc.1.symm, Or.inr hc.2.symm⟩)
  have gF3 : dbHGet (applyCmd (applyCmd (applyCmd st (RCmd.hincrby (Utilities.getDeploymentKeyLabelsHash D2) (some (L2 ++ ":" ++ ACTIVE)) 1)) (RCmd.hincrby (Utilities.getDeploymentKeyLabelsHash D2) (some (L2 ++ ":" ++ DEPLOYMENT_SUCCEEDED)) 1)) (RCmd.hincrby (Utilities.getDeploymentKeyLabelsHash D1) (some (L1 ++ ":" ++ ACTIVE)) (-1))) k f = dbHGet (applyCmd (applyCmd st (RCmd.hincrby (Utilities.getDeploymentKeyLabelsHash D2) (some (L2 ++ ":" ++ ACTIVE)) 1)) (RCmd.hincrby (Utilities.getDeploymentKeyLabelsHash D2) (some (L2 ++ ":" ++ DEPLOYMENT_SUCCEEDED)) 1)) k f :=
    dbHGet_incr_ne (applyCmd (applyCmd st (RCmd.hincrby (Utilities.getDeploymentKeyLabelsHash D2) (some (L2 ++ ":" ++ ACTIVE)) 1)) (RCmd.hincrby (Utilities.getDeploymentKeyLabelsHash D2) (some (L2 ++ ":" ++ DEPLOYMENT_SUCCEEDED)) 1)) (Utilities.getDeploymentKeyLabelsHash D1) (L1 ++ ":" ++ ACTIVE) (-1) k f (fun hc => hother.2 ⟨hc.1.symm, hc.2.symm⟩)
  refine ⟨htr, by rw [htr]; rfl, ?_, ?_, ?_, ?_⟩
  · rw [hstep, counterVal_ext (applyCmd (applyCmd st (RCmd.hincrby (Utilities.getDeploymentKeyLabelsHash D2) (some (L2 ++ ":" ++ ACTIVE)) 1)) (RCmd.hincrby (Utilities.getDeploymentKeyLabelsHash D2) (some (L2 ++ ":" ++ DEPLOYMENT_SUCCEEDED)) 1)) (applyCmd (applyCmd (applyCmd st (RCmd.hincrby (Utilities.getDeploymentKeyLabelsHash D2) (some (L2 ++ ":" ++ ACTIVE)) 1)) (RCmd.hincrby (Utilities.getDeploymentKeyLabelsHash D2) (some (L2 ++ ":" ++ DEPLOYMENT_SUCCEEDED)) 1)) (RCmd.hincrby (Utilities.getDeploymentKeyLabelsHash D1) (some (L1 ++ ":" ++ ACTIVE)) (-1))) (Utilities.getDeploymentKeyLabelsHash D2) (L2 ++ ":" ++ ACTIVE) gA3,
      counterVal_ext (applyCmd st (RCmd.hincrby (Utilities.getDeploymentKeyLabelsHash D2) (some (L2 ++ ":" ++ ACTIVE)) 1)) (applyCmd (applyCmd st (RCmd.hincrby (Utilities.getDeploymentKeyLabelsHash D2) (some (L2 ++ ":" ++ ACTIVE)) 1)) (RCmd.hincrby (Utilities.getDeploymentKeyLabelsHash D2) (some (L2 ++ ":" ++ DEPLOYMENT_SUCCEEDED)) 1)) (Utilities.getDeploymentKeyLabelsHash D2) (L2 ++ ":" ++ ACTIVE) gA2, cvA1]
  · rw [hstep, counterVal_ext (applyCmd (applyCmd st (RCmd.hincrby (Utilities.getDeploymentKeyLabelsHash D2) (some (L2 ++ ":" ++ ACTIVE)) 1)) (RCmd.hincrby (Utilities.getDeploymentKeyLabelsHash D2) (some (L2 ++ ":" ++ DEPLOYMENT_SUCCEEDED)) 1)) (applyCmd (applyCmd (applyCmd st (RCmd.hincrby (Utilities.getDeploymentKeyLabelsHash D2) (some (L2 ++ ":" ++ ACTIVE)) 1)) (RCmd.hincrby (Utilities.getDeploymentKeyLabelsHash D2) (some (L2 ++ ":" ++ DEPLOYMENT_SUCCEEDED)) 1)) (RCmd.hincrby (Utilities.getDeploymentKeyLabelsHash D1) (some (L1 ++ ":" ++ ACTIVE)) (-1))) (Utilities.getDeploymentKeyLabelsHash D2) (L2 ++ ":" ++ DEPLOYMENT_SUCCEEDED) gS3, cvS2,
      counterVal_ext st (applyCmd st (RCmd.hincrby (Utilities.getDeploymentKeyLabelsHash D2) (some (L2 ++ ":" ++ ACTIVE)) 1)) (Utilities.getDeploymentKeyLabelsHash D2) (L2 ++ ":" ++ DEPLOYMENT_SUCCEEDED) gS1]
  · rw [hstep, cvD3, counterVal_ext (applyCmd st (RCmd.hincrby (Utilities.getDeploymentKeyLabelsHash D2) (some (L2 ++ ":" ++ ACTIVE)) 1)) (applyCmd (applyCmd st (RCmd.hincrby (Utilities.getDeploymentKeyLabelsHash D2) (some (L2 ++ ":" ++ ACTIVE)) 1)) (RCmd.hincrby (Utilities.getDeploymentKeyLabelsHash D2) (some (L2 ++ ":" ++ DEPLOYMENT_SUCCEEDED)) 1)) (Utilities.getDeploymentKeyLabelsHash D1) (L1 ++ ":" ++ ACTIVE) gD2,
      counterVal_ext st (applyCmd st (RCmd.hincrby (Utilities.getDeploymentKeyLabelsHash D2) (some (L2 ++ ":" ++ ACTIVE)) 1)) (Utilities.getDeploymentKeyLabelsHash D1) (L1 ++ ":" ++ ACTIVE) gD1]
    omega
  · rw [hstep, gF3, gF2, gF1]

/-- Witness for C1 at concrete inputs (empty store, two deployments). -/
theorem c1_recordTransition_atomic_witness :
    counterVal (runActs emptyDB (RMQ.recordUpdate true "d2" "l2" (some "d1") (some "l1")))
        (Utilities.getDeploymentKeyLabelsHash "d2") ("l2" ++ ":" ++ ACTIVE)
      = counterVal emptyDB (Utilities.getDeploymentKeyLabelsHash "d2")
          ("l2" ++ ":" ++ ACTIVE) + 1 :=
  (c1_recordTransition_atomic emptyDB "d2" "l2" "d1" "l1" "k0" "f0" (by decide) (by decide)
    (by decide) (by decide) (by decide) (by decide) (by decide) (by decide)).2.2.1
